import Mathlib

/-!
Verification development for the workspace core of the komorebi tiling
window manager fork (src/komorebi/src/workspace.rs).

The shallow embedding below translates `workspace.rs` into Lean. The
`Ring`, `Container`, `Window`, `Rect` and layout types live in sibling
files that are not part of the source tree; those parts are modelled from
the specification document (marked `Modelled from the spec:`). Rust
machine-integer behaviour is modelled as follows:

* `usize` is `Nat`; the one subtraction that can underflow
  (`self.containers().len() - 1` in `reintegrate_monocle_container`)
  is modelled with release-build wrapping semantics, i.e. an explicit
  `% 2 ^ 64` (`usizeWrapSub1` below);
* `Vec::remove` / `Vec::insert` / `VecDeque::insert` abort on an
  out-of-range index in every build profile; such aborts are modelled by
  the `StepResult.panic` outcome;
* `VecDeque::remove` returns `Option` and is total;
* platform calls (`WindowsApi::foreground_window`, cursor position,
  `load_focused_window`, `maximize`, `hide`, ...) do not change the
  workspace data; query results are passed in as explicit parameters and
  presentation commands are modelled as no-ops.

Config-only `Workspace` fields (`name`, paddings, `layout_rules`,
`layout_flip`, `tile`, `is_poker_workspace`) are never read or written by
the transitions modelled here and are omitted from the state record.
-/

/-- Modelled from the spec: a screen rectangle (komorebi_core `Rect`,
not under src/): left/top origin with right/bottom extents. -/
structure Rect where
  left : Int
  top : Int
  right : Int
  bottom : Int
deriving DecidableEq

/-- Modelled from the spec: hit-testing a point against a rectangle's
bounds (komorebi_core `Rect::contains_point`, not under src/). -/
def Rect.contains_point (r : Rect) (point : Int × Int) : Bool :=
  decide (r.left ≤ point.1) && decide (point.1 ≤ r.left + r.right) &&
  decide (r.top ≤ point.2) && decide (point.2 ≤ r.top + r.bottom)

/-- Modelled from the spec: a `Window` is an opaque handle plus queryable
metadata; equality is handle-based. `exe` models the cached answer of the
fallible `window.exe()` platform query (`none` when the query fails). -/
structure Window where
  hwnd : Int
  exe : Option String
deriving DecidableEq

/-- Modelled from the spec: `window.exe()` matched against a target
executable name, returning the handle on a successful match. -/
def Window.exe_match (win : Window) (exe : String) : Option Int :=
  match win.exe with
  | some e => if e = exe then some win.hwnd else none
  | none => none

/-- Modelled from the spec: a `Container` wraps a focus-tracking
`Ring<Window>`; the ring is an ordered sequence plus a focused index. -/
structure Container where
  windows : List Window
  focused : Nat
deriving DecidableEq

/-- Modelled from the spec: the default (empty) container used for
restore-index padding. -/
def Container.empty : Container := { windows := [], focused := 0 }

/-- Modelled from the spec: `Container::add_window` appends to the ring
and focuses the newly added window. -/
def Container.add_window (c : Container) (w : Window) : Container :=
  { windows := c.windows ++ [w], focused := c.windows.length }

/-- Modelled from the spec: `Container::focused_window`. -/
def Container.focused_window (c : Container) : Option Window :=
  c.windows[c.focused]?

/-- Modelled from the spec: `Container::remove_window_by_idx` removes the
window at `idx` from the ring, re-clamping the focus cursor (removal at
or below the focused element moves focus to `max(focused - 1, 0)`,
removal above it leaves focus alone). Returns `none` when `idx` is out
of range, leaving the container unchanged. -/
def Container.remove_window_by_idx (c : Container) (idx : Nat) :
    Option (Window × Container) :=
  match c.windows[idx]? with
  | some w =>
      some (w, { windows := c.windows.eraseIdx idx,
                 focused := if idx ≤ c.focused then c.focused - 1 else c.focused })
  | none => none

/-- Modelled from the spec: `Container::remove_focused_window`. -/
def Container.remove_focused_window (c : Container) :
    Option (Window × Container) :=
  c.remove_window_by_idx c.focused

/-- Modelled from the spec: `Container::contains_window` (handle-based
membership). -/
def Container.contains_window (c : Container) (hwnd : Int) : Bool :=
  c.windows.any (fun win => decide (win.hwnd = hwnd))

/-- Modelled from the spec: `Container::hwnd_from_exe` — first window of
the ring whose executable matches, in ring order. -/
def Container.hwnd_from_exe (c : Container) (exe : String) : Option Int :=
  c.windows.findSome? (fun win => win.exe_match exe)

/-- Modelled from the spec: the active layout. `Custom` carries
`first_container_idx(primary_idx())` precomputed: the first slot of the
custom layout's primary column when one is configured (komorebi_core
`CustomLayout`, not under src/). -/
inductive Layout where
  | Default : Layout
  | Custom : Option Nat → Layout
deriving DecidableEq

/-- The workspace state of `workspace.rs` (fields that the modelled
transitions read or write; see the file comment for the omitted
config-only fields). `focused` is the tiled ring's focus cursor, a plain
`usize` as in `Ring`. -/
structure Workspace where
  containers : List Container
  focused : Nat
  monocle_container : Option Container
  monocle_container_restore_idx : Option Nat
  maximized_window : Option Window
  maximized_window_restore_idx : Option Nat
  floating_windows : List Window
  resize_dimensions : List (Option Rect)
  layout : Layout
  latest_layout : List Rect
deriving DecidableEq

/-- Outcome of one fallible `Workspace` method: normal return with the
new state, `Err` return carrying the state as mutated up to that point,
or an abort (Rust panic: out-of-range `Vec`/`VecDeque` index). -/
inductive StepResult where
  | panic : StepResult
  | error : Workspace → StepResult
  | ok : Workspace → StepResult
deriving DecidableEq

/-- Projection of a successful outcome. -/
def StepResult.okState : StepResult → Option Workspace
  | .ok w => some w
  | _ => none

/-- Projection of an `Err` outcome. -/
def StepResult.errState : StepResult → Option Workspace
  | .error w => some w
  | _ => none

/-- Wrapping `usize` subtraction of 1 (release-build Rust semantics):
explicit arithmetic modulo `2 ^ 64`. -/
def usizeWrapSub1 (n : Nat) : Nat := (n + (2 ^ 64 - 1)) % 2 ^ 64

/-- `VecDeque::resize(new_len, fill)`: truncates to or pads up to
`new_len` with clones of `fill`. -/
def vecResize {α : Type} (l : List α) (newLen : Nat) (fill : α) : List α :=
  if newLen ≤ l.length then l.take newLen
  else l ++ List.replicate (newLen - l.length) fill

/-- The source's repeated `for (i, x) { if p { idx = Some(i) } }` scan:
fold over the enumerated list keeping the last index satisfying `q`. -/
def lastMatchFold {α : Type} (l : List α) (q : Nat × α → Bool) : Option Nat :=
  l.enum.foldl (fun acc x => if q x then some x.1 else acc) none

namespace Workspace

/-- `impl_ring_elements!`: `focused_container_idx` exposes the ring's
plain focus cursor. -/
def focused_container_idx (w : Workspace) : Nat := w.focused

/-- `impl_ring_elements!`: `focused_container`. -/
def focused_container (w : Workspace) : Option Container :=
  w.containers[w.focused]?

/-- Modelled from the spec: `Ring::focus` via `Workspace::focus_container`;
the spec allows a no-op or a clamp on an out-of-range index, and a no-op
is chosen here. Every call site modelled below passes an in-range index,
so the choice is inert. -/
def focus_container (w : Workspace) (idx : Nat) : Workspace :=
  if idx < w.containers.length then { w with focused := idx } else w

/-- `Workspace::focus_previous_container`. -/
def focus_previous_container (w : Workspace) : Workspace :=
  if w.focused_container_idx ≠ 0 then w.focus_container (w.focused_container_idx - 1)
  else w

/-- `Workspace::focus_last_container` (`len() - 1` with wrapping usize
subtraction). -/
def focus_last_container (w : Workspace) : Workspace :=
  w.focus_container (usizeWrapSub1 w.containers.length)

/-- `Workspace::add_container`: push the container onto the ring and
focus the last slot. `resize_dimensions` is not touched. -/
def add_container (w : Workspace) (container : Container) : Workspace :=
  ({ w with containers := w.containers ++ [container] }).focus_last_container

/-- `Workspace::insert_container_at_idx` (`VecDeque::insert` aborts past
the end). `resize_dimensions` is not touched. -/
def insert_container_at_idx (w : Workspace) (idx : Nat) (container : Container) :
    StepResult :=
  if idx ≤ w.containers.length then
    .ok { w with containers := w.containers.insertIdx idx container }
  else .panic

/-- `Workspace::remove_container_by_idx`: removes the resize slot at
`idx` when present, then removes and returns the container at `idx` when
present. -/
def remove_container_by_idx (w : Workspace) (idx : Nat) :
    Option Container × Workspace :=
  let w1 := if idx < w.resize_dimensions.length
            then { w with resize_dimensions := w.resize_dimensions.eraseIdx idx }
            else w
  match w1.containers[idx]? with
  | some c => (some c, { w1 with containers := w1.containers.eraseIdx idx })
  | none => (none, w1)

/-- `Workspace::remove_focused_container`: remove at the focused index,
then unconditionally step focus back by one (floored at 0). -/
def remove_focused_container (w : Workspace) : Option Container × Workspace :=
  let r := w.remove_container_by_idx w.focused_container_idx
  (r.1, r.2.focus_previous_container)

/-- `Workspace::remove_container`: remove at the given index, then
unconditionally step focus back by one (floored at 0). -/
def remove_container (w : Workspace) (idx : Nat) : Option Container × Workspace :=
  let r := w.remove_container_by_idx idx
  (r.1, r.2.focus_previous_container)

/-- `Workspace::container_idx_for_window`: scans the whole ring without
short-circuiting, so the last matching container index wins. -/
def container_idx_for_window (w : Workspace) (hwnd : Int) : Option Nat :=
  lastMatchFold w.containers (fun x => x.2.contains_window hwnd)

/-- `Workspace::container_for_window`. -/
def container_for_window (w : Workspace) (hwnd : Int) : Option Container :=
  match w.container_idx_for_window hwnd with
  | some idx => w.containers[idx]?
  | none => none

/-- `Workspace::contains_window`: tiled containers, then the maximized
window, then the monocle container, then the floating list, returning at
the first match. -/
def contains_window (w : Workspace) (hwnd : Int) : Bool :=
  w.containers.any (fun c => c.contains_window hwnd) ||
  (match w.maximized_window with
   | some win => decide (hwnd = win.hwnd)
   | none => false) ||
  (match w.monocle_container with
   | some c => c.contains_window hwnd
   | none => false) ||
  w.floating_windows.any (fun win => decide (hwnd = win.hwnd))

/-- `Workspace::contains_managed_window`: tiled containers, then the
maximized window, then the monocle container; floating windows are not
consulted. -/
def contains_managed_window (w : Workspace) (hwnd : Int) : Bool :=
  w.containers.any (fun c => c.contains_window hwnd) ||
  (match w.maximized_window with
   | some win => decide (hwnd = win.hwnd)
   | none => false) ||
  (match w.monocle_container with
   | some c => c.contains_window hwnd
   | none => false)

/-- `Workspace::hwnd_from_exe`: first handle found searching tiled
containers, then the maximized window, then the monocle container, then
the floating list. -/
def hwnd_from_exe (w : Workspace) (exe : String) : Option Int :=
  match w.containers.findSome? (fun c => c.hwnd_from_exe exe) with
  | some hwnd => some hwnd
  | none =>
    match w.maximized_window.bind (fun win => win.exe_match exe) with
    | some hwnd => some hwnd
    | none =>
      match w.monocle_container.bind (fun c => c.hwnd_from_exe exe) with
      | some hwnd => some hwnd
      | none => w.floating_windows.findSome? (fun win => win.exe_match exe)

/-- `Workspace::container_idx_from_current_point` at an explicit cursor
position: scan every ring index, keeping the last one whose latest-layout
rectangle contains the point. -/
def container_idx_from_current_point (w : Workspace) (point : Int × Int) :
    Option Nat :=
  w.containers.enum.foldl
    (fun acc x =>
      match w.latest_layout[x.1]? with
      | some rect => if rect.contains_point point then some x.1 else acc
      | none => acc)
    none

/-- `Workspace::promote_container`: `resize_dimensions.remove(0)` first
(a `Vec::remove`, aborting on an empty vector), then remove the focused
container, then resolve the layout's primary slot, then reinsert. -/
def promote_container (w : Workspace) : StepResult :=
  match w.resize_dimensions with
  | [] => .panic
  | resize :: rest =>
    let w1 : Workspace := { w with resize_dimensions := rest }
    let r := w1.remove_focused_container
    match r.1 with
    | none => .error r.2
    | some container =>
      let primaryIdx? : Option Nat :=
        match r.2.layout with
        | .Default => some 0
        | .Custom primary => primary
      match primaryIdx? with
      | none => .error r.2
      | some primary_idx =>
        if primary_idx ≤ r.2.containers.length then
          let w2 : Workspace :=
            { r.2 with containers := r.2.containers.insertIdx primary_idx container }
          if primary_idx ≤ w2.resize_dimensions.length then
            .ok (({ w2 with resize_dimensions :=
                      w2.resize_dimensions.insertIdx primary_idx resize }).focus_container
                  primary_idx)
          else .panic
        else .panic

/-- `Workspace::new_container_for_window`: wrap the window in a fresh
container inserted right after the focused slot (or slot 0 of an empty
ring), mirror a `None` resize slot at the same index, and focus it. -/
def new_container_for_window (w : Workspace) (window : Window) : Workspace :=
  let next_idx := if w.containers.isEmpty then 0 else w.focused_container_idx + 1
  let container := Container.empty.add_window window
  let w1 := if next_idx > w.containers.length
            then { w with containers := w.containers ++ [container] }
            else { w with containers := w.containers.insertIdx next_idx container }
  let w2 := if next_idx > w1.resize_dimensions.length
            then { w1 with resize_dimensions := w1.resize_dimensions ++ [none] }
            else { w1 with resize_dimensions :=
                     w1.resize_dimensions.insertIdx next_idx none }
  w2.focus_container next_idx

/-- `Workspace::remove_focused_floating_window` at an explicit foreground
handle: last floating window matching the foreground is removed and
returned. -/
def remove_focused_floating_window (w : Workspace) (foreground : Int) :
    Option Window × Workspace :=
  match lastMatchFold w.floating_windows (fun x => decide (foreground = x.2.hwnd)) with
  | none => (none, w)
  | some idx =>
    match w.floating_windows[idx]? with
    | some win => (some win, { w with floating_windows := w.floating_windows.eraseIdx idx })
    | none => (none, w)

/-- `Workspace::new_container_for_floating_window` at an explicit
foreground handle: remove the focused floating window, wrap it in a fresh
container inserted at the focused tiled index with a `None` resize slot
(`VecDeque::insert` / `Vec::insert` abort past the end). -/
def new_container_for_floating_window (w : Workspace) (foreground : Int) :
    StepResult :=
  let focused_idx := w.focused_container_idx
  let r := w.remove_focused_floating_window foreground
  match r.1 with
  | none => .error r.2
  | some window =>
    let container := Container.empty.add_window window
    if focused_idx ≤ r.2.containers.length then
      let w2 : Workspace :=
        { r.2 with containers := r.2.containers.insertIdx focused_idx container }
      if focused_idx ≤ w2.resize_dimensions.length then
        .ok { w2 with resize_dimensions :=
                w2.resize_dimensions.insertIdx focused_idx none }
      else .panic
    else .panic

/-- Tail of `Workspace::move_window_to_container` after the source
container has been dealt with: resolve the (adjusted) target container,
append the window to it, focus it and re-assert its visible window. -/
def move_finish (w : Workspace) (adjusted : Nat) (window : Window) : StepResult :=
  match w.containers[adjusted]? with
  | none => .error w
  | some target_container =>
    let w2 : Workspace :=
      { w with containers := w.containers.set adjusted (target_container.add_window window) }
    let w3 := w2.focus_container adjusted
    match w3.containers[w3.focused_container_idx]? with
    | none => .error w3
    | some _ => .ok w3

/-- `Workspace::move_window_to_container`: remove the focused window from
the focused container; when that empties the source, drop the source
container and its resize slot (a `Vec::remove`, aborting when out of
range) and decrement the target index when the target lay after the
source; then hand over to `move_finish`. -/
def move_window_to_container (w : Workspace) (target_container_idx : Nat) :
    StepResult :=
  let focused_idx := w.focused_container_idx
  match w.containers[focused_idx]? with
  | none => .error w
  | some container =>
    match container.remove_focused_window with
    | none => .error w
    | some (window, container') =>
      let w1 : Workspace :=
        { w with containers := w.containers.set focused_idx container' }
      if container'.windows.isEmpty then
        let w2 : Workspace :=
          { w1 with containers := w1.containers.eraseIdx focused_idx }
        if focused_idx < w2.resize_dimensions.length then
          let w3 : Workspace :=
            { w2 with resize_dimensions := w2.resize_dimensions.eraseIdx focused_idx }
          let adjusted := if focused_idx < target_container_idx
                          then target_container_idx - 1 else target_container_idx
          w3.move_finish adjusted window
        else .panic
      else
        w1.move_finish target_container_idx window

/-- Tiled tail of `Workspace::remove_window`: locate the (last) container
holding the handle, remove the (first) matching window from it, destroy
the container and its resize slot when it empties, then unconditionally
step focus back by one. -/
def remove_window_tiled (w : Workspace) (hwnd : Int) : StepResult :=
  match w.container_idx_for_window hwnd with
  | none => .error w
  | some container_idx =>
    match w.containers[container_idx]? with
    | none => .error w
    | some container =>
      match container.windows.findIdx? (fun win => decide (win.hwnd = hwnd)) with
      | none => .error w
      | some window_idx =>
        match container.remove_window_by_idx window_idx with
        | none => .error w
        | some (_, container') =>
          let w1 : Workspace :=
            { w with containers := w.containers.set container_idx container' }
          if container'.windows.isEmpty then
            match w1.containers[container_idx]? with
            | none => .error w1
            | some _ =>
              let w2 : Workspace :=
                { w1 with containers := w1.containers.eraseIdx container_idx }
              let w3 := if container_idx < w2.resize_dimensions.length
                        then { w2 with resize_dimensions :=
                                 w2.resize_dimensions.eraseIdx container_idx }
                        else w2
              .ok w3.focus_previous_container
          else .ok w1

/-- Maximized-then-tiled tail of `Workspace::remove_window`. -/
def remove_window_rest (w : Workspace) (hwnd : Int) : StepResult :=
  match w.maximized_window with
  | some window =>
    if window.hwnd = hwnd then
      .ok { w with maximized_window := none, maximized_window_restore_idx := none }
    else w.remove_window_tiled hwnd
  | none => w.remove_window_tiled hwnd

/-- `Workspace::remove_window`: floating list first (retaining everything
with a different handle), then the monocle container (cleared when it
empties), then the maximized slot, then the tiled ring. -/
def remove_window (w : Workspace) (hwnd : Int) : StepResult :=
  if w.floating_windows.any (fun win => decide (win.hwnd = hwnd)) then
    .ok { w with floating_windows :=
            w.floating_windows.filter (fun win => decide (¬ win.hwnd = hwnd)) }
  else
    match w.monocle_container with
    | some container =>
      match container.windows.findIdx? (fun win => decide (win.hwnd = hwnd)) with
      | some window_idx =>
        match container.remove_window_by_idx window_idx with
        | none => .error w
        | some (_, container') =>
          if container'.windows.isEmpty then
            .ok { w with monocle_container := none,
                         monocle_container_restore_idx := none }
          else .ok { w with monocle_container := some container' }
      | none => w.remove_window_rest hwnd
    | none => w.remove_window_rest hwnd

/-- `Workspace::new_floating_window`: take the window from the maximized
slot, else from the monocle container (cleared when emptied), else the
focused window of the focused tiled container (container and its resize
slot destroyed when emptied, the latter an unguarded `Vec::remove`);
append it to the floating list. -/
def new_floating_window (w : Workspace) : StepResult :=
  match w.maximized_window with
  | some maximized_window =>
    .ok { w with maximized_window := none, maximized_window_restore_idx := none,
                 floating_windows := w.floating_windows ++ [maximized_window] }
  | none =>
    match w.monocle_container with
    | some monocle_container =>
      match monocle_container.remove_focused_window with
      | none => .error w
      | some (window, mc') =>
        if mc'.windows.isEmpty then
          .ok { w with monocle_container := none,
                       monocle_container_restore_idx := none,
                       floating_windows := w.floating_windows ++ [window] }
        else
          .ok { w with monocle_container := some mc',
                       floating_windows := w.floating_windows ++ [window] }
    | none =>
      let focused_idx := w.focused_container_idx
      match w.containers[focused_idx]? with
      | none => .error w
      | some container =>
        match container.remove_focused_window with
        | none => .error w
        | some (window, container') =>
          let w1 : Workspace :=
            { w with containers := w.containers.set focused_idx container' }
          if container'.windows.isEmpty then
            let w2 : Workspace :=
              { w1 with containers := w1.containers.eraseIdx focused_idx }
            if focused_idx < w2.resize_dimensions.length then
              let w3 : Workspace :=
                { w2 with resize_dimensions := w2.resize_dimensions.eraseIdx focused_idx }
              .ok { w3 with floating_windows := w3.floating_windows ++ [window] }
            else .panic
          else .ok { w1 with floating_windows := w1.floating_windows ++ [window] }

/-- `Workspace::new_monocle_container`: pull the whole focused container
out of the ring into the monocle slot, record the focused index as the
restore index, and step focus back by one. The container's resize slot
is deliberately kept. -/
def new_monocle_container (w : Workspace) : StepResult :=
  let focused_idx := w.focused_container_idx
  match w.containers[focused_idx]? with
  | none => .error w
  | some container =>
    let w1 : Workspace :=
      { w with containers := w.containers.eraseIdx focused_idx,
               monocle_container := some container,
               monocle_container_restore_idx := some focused_idx }
    .ok w1.focus_previous_container

/-- Shared tail of the two reintegration methods: insert the container at
the restore index (`VecDeque::insert` aborts past the end), focus it, and
re-assert its visible window (`focused_container_mut().ok_or(...)?`). The
caller clears its own exclusive slot on success. -/
def reintegrate_finish (w1 : Workspace) (restore_idx : Nat)
    (container : Container) : StepResult :=
  if restore_idx ≤ w1.containers.length then
    let w2 : Workspace :=
      { w1 with containers := w1.containers.insertIdx restore_idx container }
    let w3 := w2.focus_container restore_idx
    match w3.containers[w3.focused_container_idx]? with
    | none => .error w3
    | some _ => .ok w3
  else .panic

/-- `Workspace::reintegrate_monocle_container`: pad the ring with default
containers up to the restore index when it lies past `len() - 1` (a
wrapping usize subtraction), reinsert the stored container there, focus
it, and clear the monocle state. -/
def reintegrate_monocle_container (w : Workspace) : StepResult :=
  match w.monocle_container_restore_idx with
  | none => .error w
  | some restore_idx =>
    match w.monocle_container with
    | none => .error w
    | some container =>
      let w1 := if restore_idx > usizeWrapSub1 w.containers.length
                then { w with containers :=
                         vecResize w.containers restore_idx Container.empty }
                else w
      match w1.reintegrate_finish restore_idx container with
      | .ok w3 => .ok { w3 with monocle_container := none,
                                monocle_container_restore_idx := none }
      | r => r

/-- `Workspace::new_maximized_window` at an explicit foreground handle:
prefer the (last) floating window matching the foreground, else the
focused window of the monocle container (inheriting the monocle restore
index), else the focused window of the focused tiled container (which
also steps focus back by one). -/
def new_maximized_window (w : Workspace) (foreground : Int) : StepResult :=
  let focused_idx := w.focused_container_idx
  match lastMatchFold w.floating_windows (fun x => decide (x.2.hwnd = foreground)) with
  | some idx =>
    match w.floating_windows[idx]? with
    | none => .panic
    | some floating_window =>
      .ok { w with floating_windows := w.floating_windows.eraseIdx idx,
                   maximized_window := some floating_window,
                   maximized_window_restore_idx := some focused_idx }
  | none =>
    let monocle_restore_idx := w.monocle_container_restore_idx
    match w.monocle_container with
    | some monocle_container =>
      match monocle_container.remove_focused_window with
      | none => .error w
      | some (window, mc') =>
        if mc'.windows.isEmpty then
          .ok { w with monocle_container := none,
                       monocle_container_restore_idx := none,
                       maximized_window := some window,
                       maximized_window_restore_idx := monocle_restore_idx }
        else
          .ok { w with monocle_container := some mc',
                       maximized_window := some window,
                       maximized_window_restore_idx := monocle_restore_idx }
    | none =>
      match w.containers[focused_idx]? with
      | none => .error w
      | some container =>
        match container.remove_focused_window with
        | none => .error w
        | some (window, container') =>
          let w1 : Workspace :=
            { w with containers := w.containers.set focused_idx container' }
          let w2 := if container'.windows.isEmpty then
                      let wa : Workspace :=
                        { w1 with containers := w1.containers.eraseIdx focused_idx }
                      if focused_idx < wa.resize_dimensions.length then
                        { wa with resize_dimensions :=
                            wa.resize_dimensions.eraseIdx focused_idx }
                      else wa
                    else w1
          .ok (({ w2 with maximized_window := some window,
                          maximized_window_restore_idx :=
                            some focused_idx }).focus_previous_container)

/-- `Workspace::reintegrate_maximized_window`: pad the ring up to the
restore index when the ring is non-empty and the index lies past
`len() - 1`, wrap the window in a fresh container pushed directly onto
the windows deque, insert it at the restore index (`VecDeque::insert`
aborts past the end), focus it, and clear the maximized state. -/
def reintegrate_maximized_window (w : Workspace) : StepResult :=
  match w.maximized_window_restore_idx with
  | none => .error w
  | some restore_idx =>
    match w.maximized_window with
    | none => .error w
    | some window =>
      let w1 := if ¬ w.containers.isEmpty ∧ restore_idx > w.containers.length - 1
                then { w with containers :=
                         vecResize w.containers restore_idx Container.empty }
                else w
      let container : Container := { windows := [window], focused := 0 }
      match w1.reintegrate_finish restore_idx container with
      | .ok w3 => .ok { w3 with maximized_window := none,
                                maximized_window_restore_idx := none }
      | r => r

end Workspace

/-- Handles of the windows in a container's ring. -/
def Container.hwnds (c : Container) : List Int := c.windows.map Window.hwnd

/-- Handles of all windows across a list of tiled containers. -/
def tiledHwnds (l : List Container) : List Int := (l.map Container.hwnds).flatten

/-- Handles held by an optional (monocle) container. -/
def optContainerHwnds : Option Container → List Int
  | some c => c.hwnds
  | none => []

/-- Handle held by an optional (maximized) window. -/
def optWindowHwnd : Option Window → List Int
  | some win => [win.hwnd]
  | none => []

namespace Workspace

/-- Every handle managed by the workspace, with multiplicity, across the
four placement states: tiled containers, monocle container, maximized
slot, floating list. -/
def all_hwnds (w : Workspace) : List Int :=
  tiledHwnds w.containers ++ optContainerHwnds w.monocle_container ++
  optWindowHwnd w.maximized_window ++ w.floating_windows.map Window.hwnd

/-- The partition invariant of the spec: every managed handle occurs in
exactly one placement state, i.e. the combined handle list has no
duplicate. -/
abbrev PartitionInv (w : Workspace) : Prop := w.all_hwnds.Nodup

end Workspace

/-- The placement transitions named by the spec's partition invariant,
with the platform inputs they consume. -/
inductive Op where
  | new_container_for_window : Window → Op
  | move_window_to_container : Nat → Op
  | new_floating_window : Op
  | new_monocle_container : Op
  | reintegrate_monocle_container : Op
  | new_maximized_window : Int → Op
  | reintegrate_maximized_window : Op
  | remove_window : Int → Op
deriving DecidableEq

/-- Run one placement transition. -/
def runOp (op : Op) (w : Workspace) : StepResult :=
  match op with
  | .new_container_for_window window => .ok (w.new_container_for_window window)
  | .move_window_to_container target => w.move_window_to_container target
  | .new_floating_window => w.new_floating_window
  | .new_monocle_container => w.new_monocle_container
  | .reintegrate_monocle_container => w.reintegrate_monocle_container
  | .new_maximized_window foreground => w.new_maximized_window foreground
  | .reintegrate_maximized_window => w.reintegrate_maximized_window
  | .remove_window hwnd => w.remove_window hwnd

/-- Preconditions under which a transition is invoked: a newly reported
window is not already managed (spec lifecycle), the monocle/maximize
transitions are not asked to overwrite an already-occupied exclusive
slot (spec 4.3 preconditions), and ring lengths fit in a usize. -/
def opPrecond (op : Op) (w : Workspace) : Prop :=
  match op with
  | .new_container_for_window window => window.hwnd ∉ w.all_hwnds
  | .new_monocle_container => w.monocle_container = none
  | .new_maximized_window _ => w.maximized_window = none
  | .reintegrate_monocle_container => w.containers.length ≤ 2 ^ 64
  | _ => True

/-- The managed-handle list a successful transition is expected to leave
behind: `remove_window` deletes exactly the removed handle,
`new_container_for_window` adds exactly the new one, and every other
transition conserves the handles. -/
def opExpectedHwnds (op : Op) (w : Workspace) : List Int :=
  match op with
  | .new_container_for_window window => window.hwnd :: w.all_hwnds
  | .remove_window hwnd => w.all_hwnds.erase hwnd
  | _ => w.all_hwnds

/-- Modelled from the spec (reference function for the lookup-order
claim): search the per-place executable matches in the order tiled
containers, maximized window, monocle container, floating windows, and
return the first hit. -/
def hwnd_from_exe_spec (w : Workspace) (exe : String) : Option Int :=
  ((w.containers.map (fun c => c.hwnd_from_exe exe)) ++
   [w.maximized_window.bind (fun win => win.exe_match exe)] ++
   [w.monocle_container.bind (fun c => c.hwnd_from_exe exe)] ++
   (w.floating_windows.map (fun win => win.exe_match exe))).findSome? id

/-- A workspace with nothing managed (the non-config fields of
`Workspace::default`). -/
def emptyWorkspace : Workspace :=
  { containers := [], focused := 0,
    monocle_container := none, monocle_container_restore_idx := none,
    maximized_window := none, maximized_window_restore_idx := none,
    floating_windows := [], resize_dimensions := [],
    layout := .Default, latest_layout := [] }

/-- Two-window container A(w1, w2) from the spec's move-window test. -/
def contA : Container := { windows := [⟨1, none⟩, ⟨2, none⟩], focused := 0 }

/-- One-window container B(w3) from the spec's move-window test. -/
def contB : Container := { windows := [⟨3, none⟩], focused := 0 }

/-- Workspace [A(w1, w2), B(w3)] with focus on A. -/
def wsMoveA : Workspace :=
  { emptyWorkspace with containers := [contA, contB],
                        resize_dimensions := [none, none] }

/-- Workspace [A(w1), B(w3)] with focus on A. -/
def wsMoveB : Workspace :=
  { emptyWorkspace with containers := [{ windows := [⟨1, none⟩], focused := 0 }, contB],
                        resize_dimensions := [none, none] }

/-- One-container workspace used to exhibit the non-atomic error path of
`move_window_to_container`. -/
def wsLoneC1 : Workspace :=
  { emptyWorkspace with containers := [{ windows := [⟨1, none⟩], focused := 0 }],
                        resize_dimensions := [none] }

/-- One-container workspace (distinct handle) used to exhibit the dropped
window of a failed `move_window_to_container`. -/
def wsLoneC2 : Workspace :=
  { emptyWorkspace with containers := [{ windows := [⟨11, none⟩], focused := 0 }],
                        resize_dimensions := [none] }

/-- Workspace with only a maximized window, input of the partition
preservation witness. -/
def wsMax9 : Workspace :=
  { emptyWorkspace with maximized_window := some ⟨9, none⟩ }

/-- Result state of `new_floating_window` on `wsMax9`. -/
def wsMax9Floated : Workspace :=
  { emptyWorkspace with floating_windows := [⟨9, none⟩] }

/-- Reachable state with an empty tiled ring but a monocle container whose
restore index is 2 (monocle the third of three containers, then remove the
remaining tiled windows): `reintegrate_monocle_container` aborts here. -/
def wsMonocleStale : Workspace :=
  { emptyWorkspace with monocle_container := some { windows := [⟨7, none⟩], focused := 0 },
                        monocle_container_restore_idx := some 2 }

/-- Two tiled containers both holding handle 5: exhibits the last-match
behaviour of `container_idx_for_window`. -/
def wsDup5 : Workspace :=
  { emptyWorkspace with containers :=
      [{ windows := [⟨5, none⟩], focused := 0 },
       { windows := [⟨6, none⟩, ⟨5, none⟩], focused := 0 }] }

/-- Three one-window containers with focus on the middle one; removing the
sole window of the third container shows the unconditional focus
decrement of `remove_window`. -/
def wsThree : Workspace :=
  { emptyWorkspace with containers :=
                          [{ windows := [⟨10, none⟩], focused := 0 },
                           { windows := [⟨20, none⟩], focused := 0 },
                           { windows := [⟨30, none⟩], focused := 0 }],
                        focused := 1,
                        resize_dimensions := [none, none, none] }

/-- Three one-window containers with focus on the middle one: the spec's
monocle round-trip test state. -/
def wsRoundTrip : Workspace :=
  { emptyWorkspace with containers :=
                          [{ windows := [⟨1, none⟩], focused := 0 },
                           { windows := [⟨2, none⟩], focused := 0 },
                           { windows := [⟨3, none⟩], focused := 0 }],
                        focused := 1,
                        resize_dimensions := [none, none, none] }

/-- A tiled container plus one floating window whose handle is the
foreground: input of the maximize-priority witness. -/
def wsFloatFg : Workspace :=
  { emptyWorkspace with containers := [{ windows := [⟨40, none⟩], focused := 0 }],
                        resize_dimensions := [none],
                        floating_windows := [⟨50, none⟩] }

/-- A workspace whose only tiled container is empty (an unreachable state
used to exercise the no-focused-window error path). -/
def wsEmptyCont : Workspace :=
  { emptyWorkspace with containers := [{ windows := [], focused := 0 }],
                        resize_dimensions := [none] }

theorem perm_cons_eraseIdx_of_getElem? {α : Type} {l : List α} {i : Nat} {a : α}
    (h : l[i]? = some a) : List.Perm l (a :: l.eraseIdx i) := by
  have hi : i < l.length := by
    by_contra hc
    simp [List.getElem?_eq_none (Nat.le_of_not_lt hc)] at h
  have ha : l[i] = a := by
    rw [List.getElem?_eq_getElem hi] at h
    exact Option.some_injective _ h
  rw [List.eraseIdx_eq_take_drop_succ]
  conv_lhs => rw [← List.take_append_drop i l, ← List.getElem_cons_drop l i hi, ha]
  exact List.perm_middle

theorem coe_cons_eq {α : Type} (a : α) (l : List α) :
    (↑(a :: l) : Multiset α) = ↑l + {a} := by
  rw [← Multiset.cons_coe, ← Multiset.singleton_add, add_comm]

theorem mset_eraseIdx_of_getElem? {α : Type} {l : List α} {i : Nat} {a : α}
    (h : l[i]? = some a) :
    (↑l : Multiset α) = ↑(l.eraseIdx i) + {a} := by
  rw [Multiset.coe_eq_coe.2 (perm_cons_eraseIdx_of_getElem? h), coe_cons_eq]

theorem mset_insertIdx {α : Type} {l : List α} {i : Nat} (h : i ≤ l.length) (a : α) :
    (↑(l.insertIdx i a) : Multiset α) = ↑l + {a} := by
  rw [Multiset.coe_eq_coe.2 (List.perm_insertIdx a l h), coe_cons_eq]

theorem mset_set_of_getElem? {α : Type} {l : List α} {i : Nat} {a : α}
    (h : l[i]? = some a) (b : α) :
    (↑(l.set i b) : Multiset α) = ↑(l.eraseIdx i) + {b} := by
  have hi : i < l.length := by
    by_contra hc
    simp [List.getElem?_eq_none (Nat.le_of_not_lt hc)] at h
  rw [List.set_eq_take_cons_drop b hi, List.eraseIdx_eq_take_drop_succ]
  rw [Multiset.coe_eq_coe.2 (List.perm_middle), coe_cons_eq]

theorem map_eraseIdx {α β : Type} (f : α → β) :
    ∀ (l : List α) (i : Nat), (l.eraseIdx i).map f = (l.map f).eraseIdx i
  | [], _ => rfl
  | _ :: _, 0 => rfl
  | a :: l, i + 1 => by
      simp only [List.eraseIdx_cons_succ, List.map_cons]
      rw [map_eraseIdx f l i]

theorem tiledHwnds_nil : tiledHwnds [] = [] := rfl

theorem tiledHwnds_cons (c : Container) (l : List Container) :
    tiledHwnds (c :: l) = c.hwnds ++ tiledHwnds l := by
  simp [tiledHwnds]

theorem tiledHwnds_append (l₁ l₂ : List Container) :
    tiledHwnds (l₁ ++ l₂) = tiledHwnds l₁ ++ tiledHwnds l₂ := by
  simp [tiledHwnds]

theorem tiledHwnds_perm {l₁ l₂ : List Container} (h : List.Perm l₁ l₂) :
    List.Perm (tiledHwnds l₁) (tiledHwnds l₂) :=
  (h.map Container.hwnds).flatten

theorem mset_tiled_eraseIdx {l : List Container} {i : Nat} {c : Container}
    (h : l[i]? = some c) :
    (↑(tiledHwnds l) : Multiset Int) = ↑(tiledHwnds (l.eraseIdx i)) + ↑c.hwnds := by
  rw [Multiset.coe_eq_coe.2 (tiledHwnds_perm (perm_cons_eraseIdx_of_getElem? h)),
      tiledHwnds_cons, Multiset.coe_add]
  exact Multiset.coe_eq_coe.2 List.perm_append_comm

theorem mset_tiled_insertIdx {l : List Container} {i : Nat} (h : i ≤ l.length)
    (c : Container) :
    (↑(tiledHwnds (l.insertIdx i c)) : Multiset Int) = ↑(tiledHwnds l) + ↑c.hwnds := by
  rw [Multiset.coe_eq_coe.2 (tiledHwnds_perm (List.perm_insertIdx c l h)),
      tiledHwnds_cons, Multiset.coe_add]
  exact Multiset.coe_eq_coe.2 List.perm_append_comm

theorem mset_tiled_set {l : List Container} {i : Nat} {c : Container}
    (h : l[i]? = some c) (b : Container) :
    (↑(tiledHwnds (l.set i b)) : Multiset Int)
      = ↑(tiledHwnds (l.eraseIdx i)) + ↑b.hwnds := by
  have hi : i < l.length := by
    by_contra hc
    simp [List.getElem?_eq_none (Nat.le_of_not_lt hc)] at h
  rw [List.set_eq_take_cons_drop b hi, List.eraseIdx_eq_take_drop_succ,
      Multiset.coe_eq_coe.2 (tiledHwnds_perm List.perm_middle),
      tiledHwnds_cons, Multiset.coe_add]
  exact Multiset.coe_eq_coe.2 List.perm_append_comm

theorem tiledHwnds_replicate_empty (k : Nat) :
    tiledHwnds (List.replicate k Container.empty) = [] := by
  induction k with
  | zero => rfl
  | succ n ih =>
      rw [List.replicate_succ, tiledHwnds_cons, ih]
      rfl

theorem tiledHwnds_vecResize {l : List Container} {n : Nat} (h : l.length ≤ n) :
    tiledHwnds (vecResize l n Container.empty) = tiledHwnds l := by
  unfold vecResize
  split
  · have h2 : n = l.length := Nat.le_antisymm (by assumption) h
    rw [h2, List.take_length]
  · rw [tiledHwnds_append, tiledHwnds_replicate_empty, List.append_nil]

theorem Container.hwnds_add_window (c : Container) (w : Window) :
    (c.add_window w).hwnds = c.hwnds ++ [w.hwnd] := by
  simp [Container.add_window, Container.hwnds]

theorem remove_window_by_idx_eq_some {c : Container} {i : Nat} {win : Window}
    {c' : Container} (h : c.remove_window_by_idx i = some (win, c')) :
    c.windows[i]? = some win ∧ c'.windows = c.windows.eraseIdx i := by
  unfold Container.remove_window_by_idx at h
  split at h
  · next h2 =>
      cases h
      exact ⟨h2, rfl⟩
  · cases h

theorem mset_hwnds_remove {c : Container} {i : Nat} {win : Window} {c' : Container}
    (h : c.remove_window_by_idx i = some (win, c')) :
    (↑c.hwnds : Multiset Int) = ↑c'.hwnds + {win.hwnd} := by
  obtain ⟨h1, h2⟩ := remove_window_by_idx_eq_some h
  have h3 : (c.windows.map Window.hwnd)[i]? = some win.hwnd := by
    rw [List.getElem?_map, h1]
    rfl
  have h4 := mset_eraseIdx_of_getElem? h3
  unfold Container.hwnds
  rw [h2, map_eraseIdx]
  exact h4

theorem all_hwnds_focus_container (w : Workspace) (i : Nat) :
    (w.focus_container i).all_hwnds = w.all_hwnds := by
  unfold Workspace.focus_container
  split <;> rfl

theorem all_hwnds_focus_previous (w : Workspace) :
    w.focus_previous_container.all_hwnds = w.all_hwnds := by
  unfold Workspace.focus_previous_container
  split
  · exact all_hwnds_focus_container w _
  · rfl

theorem containers_focus_container (w : Workspace) (i : Nat) :
    (w.focus_container i).containers = w.containers := by
  unfold Workspace.focus_container
  split <;> rfl

theorem focused_focus_container {w : Workspace} {i : Nat}
    (h : i < w.containers.length) : (w.focus_container i).focused = i := by
  unfold Workspace.focus_container
  rw [if_pos h]

theorem mset_all_hwnds (w : Workspace) :
    (↑w.all_hwnds : Multiset Int)
      = ↑(tiledHwnds w.containers) + ↑(optContainerHwnds w.monocle_container)
        + ↑(optWindowHwnd w.maximized_window)
        + ↑(w.floating_windows.map Window.hwnd) := by
  simp [Workspace.all_hwnds, ← Multiset.coe_add]
  abel

theorem mset_new_container_for_window (w : Workspace) (win : Window) :
    (↑(w.new_container_for_window win).all_hwnds : Multiset Int)
      = ↑w.all_hwnds + {win.hwnd} := by
  have hc : (Container.empty.add_window win).hwnds = [win.hwnd] := rfl
  by_cases he : w.containers.isEmpty
  · have hnil : w.containers = [] := List.isEmpty_iff.1 he
    simp [Workspace.new_container_for_window, he, hnil, all_hwnds_focus_container,
          mset_all_hwnds, tiledHwnds_cons, tiledHwnds_nil, coe_cons_eq, hc,
          ← Multiset.coe_add]
    abel
  · by_cases h1 : w.focused_container_idx + 1 > w.containers.length
    · by_cases h2 : w.focused_container_idx + 1 > w.resize_dimensions.length
      all_goals
        simp [Workspace.new_container_for_window, he, h1, h2,
              all_hwnds_focus_container, mset_all_hwnds, tiledHwnds_append,
              tiledHwnds_cons, hc, tiledHwnds, ← Multiset.coe_add]
        abel
    · have hle : w.focused_container_idx + 1 ≤ w.containers.length :=
        Nat.le_of_not_lt h1
      by_cases h2 : w.focused_container_idx + 1 > w.resize_dimensions.length
      all_goals
        simp [Workspace.new_container_for_window, he, h1, h2,
              all_hwnds_focus_container, mset_all_hwnds,
              mset_tiled_insertIdx hle, hc, ← Multiset.coe_add]
        abel

theorem mset_new_monocle_container {w w' : Workspace}
    (hpre : w.monocle_container = none)
    (h : w.new_monocle_container = .ok w') :
    (↑w'.all_hwnds : Multiset Int) = ↑w.all_hwnds := by
  unfold Workspace.new_monocle_container at h
  cases hc : w.containers[w.focused_container_idx]? with
  | none =>
      simp only [hc] at h
      cases h
  | some container =>
      simp only [hc] at h
      injection h with h2
      subst h2
      rw [all_hwnds_focus_previous, mset_all_hwnds, mset_all_hwnds,
          mset_tiled_eraseIdx hc, hpre]
      simp [optContainerHwnds]

theorem eraseIdx_set_same {α : Type} :
    ∀ (l : List α) (i : Nat) (b : α), (l.set i b).eraseIdx i = l.eraseIdx i
  | [], _, _ => rfl
  | _ :: _, 0, _ => rfl
  | a :: l, i + 1, b => by
      simp only [List.set_cons_succ, List.eraseIdx_cons_succ]
      rw [eraseIdx_set_same l i b]

theorem Container.hwnds_of_isEmpty {c : Container} (h : c.windows.isEmpty = true) :
    c.hwnds = [] := by
  unfold Container.hwnds
  rw [List.isEmpty_iff.1 h]
  rfl

theorem mset_remove_focused {c : Container} {win : Window} {c' : Container}
    (h : c.remove_focused_window = some (win, c')) :
    (↑c.hwnds : Multiset Int) = ↑c'.hwnds + {win.hwnd} :=
  mset_hwnds_remove h

theorem mset_new_floating_window {w w' : Workspace}
    (h : w.new_floating_window = .ok w') :
    (↑w'.all_hwnds : Multiset Int) = ↑w.all_hwnds := by
  unfold Workspace.new_floating_window at h
  cases hmax : w.maximized_window with
  | some mw =>
      simp only [hmax] at h
      injection h with h2
      subst h2
      rw [mset_all_hwnds, mset_all_hwnds, hmax]
      simp [optWindowHwnd, ← Multiset.coe_add, coe_cons_eq]
      abel
  | none =>
      simp only [hmax] at h
      cases hmono : w.monocle_container with
      | some mc =>
          simp only [hmono] at h
          cases hrm : mc.remove_focused_window with
          | none =>
              simp only [hrm] at h
              cases h
          | some pair =>
              obtain ⟨win, mc'⟩ := pair
              simp only [hrm] at h
              have hrm2 := mset_remove_focused hrm
              by_cases hemp : mc'.windows.isEmpty
              · simp only [hemp, if_true] at h
                injection h with h2
                subst h2
                rw [mset_all_hwnds, mset_all_hwnds, hmono, hmax]
                have hc' : mc'.hwnds = [] := Container.hwnds_of_isEmpty hemp
                rw [hc'] at hrm2
                simp [optContainerHwnds, optWindowHwnd, hrm2,
                      ← Multiset.coe_add, coe_cons_eq]
                abel
              · simp only [hemp, Bool.false_eq_true, if_false] at h
                injection h with h2
                subst h2
                rw [mset_all_hwnds, mset_all_hwnds, hmono, hmax]
                simp [optContainerHwnds, optWindowHwnd, hrm2,
                      ← Multiset.coe_add, coe_cons_eq]
                abel
      | none =>
          simp only [hmono] at h
          cases hc : w.containers[w.focused_container_idx]? with
          | none =>
              simp only [hc] at h
              cases h
          | some container =>
              simp only [hc] at h
              cases hrm : container.remove_focused_window with
              | none =>
                  simp only [hrm] at h
                  cases h
              | some pair =>
                  obtain ⟨win, c'⟩ := pair
                  simp only [hrm] at h
                  have hrm2 := mset_remove_focused hrm
                  by_cases hemp : c'.windows.isEmpty
                  · simp only [hemp, if_true] at h
                    split at h
                    · injection h with h2
                      subst h2
                      rw [mset_all_hwnds, mset_all_hwnds, hmono, hmax]
                      rw [eraseIdx_set_same, mset_tiled_eraseIdx hc]
                      have hc' : c'.hwnds = [] := Container.hwnds_of_isEmpty hemp
                      rw [hc'] at hrm2
                      simp [optContainerHwnds, optWindowHwnd, hrm2,
                            ← Multiset.coe_add, coe_cons_eq]
                      abel
                    · cases h
                  · simp only [hemp, Bool.false_eq_true, if_false] at h
                    injection h with h2
                    subst h2
                    rw [mset_all_hwnds, mset_all_hwnds, hmono, hmax]
                    rw [mset_tiled_set hc]
                    have htl := mset_tiled_eraseIdx hc
                    simp [optContainerHwnds, optWindowHwnd, hrm2, htl,
                          ← Multiset.coe_add, coe_cons_eq]
                    abel

theorem mset_move_finish {w w' : Workspace} {adjusted : Nat} {win : Window}
    (h : w.move_finish adjusted win = .ok w') :
    (↑w'.all_hwnds : Multiset Int) = ↑w.all_hwnds + {win.hwnd} := by
  unfold Workspace.move_finish at h
  cases htc : w.containers[adjusted]? with
  | none =>
      simp only [htc] at h
      cases h
  | some tc =>
      simp only [htc] at h
      split at h
      · cases h
      · injection h with h2
        subst h2
        rw [all_hwnds_focus_container, mset_all_hwnds, mset_all_hwnds]
        rw [mset_tiled_set htc, Container.hwnds_add_window,
            mset_tiled_eraseIdx htc]
        simp [← Multiset.coe_add, coe_cons_eq]
        abel

theorem mset_move_window_to_container {w w' : Workspace} {target : Nat}
    (h : w.move_window_to_container target = .ok w') :
    (↑w'.all_hwnds : Multiset Int) = ↑w.all_hwnds := by
  unfold Workspace.move_window_to_container at h
  cases hc : w.containers[w.focused_container_idx]? with
  | none =>
      simp only [hc] at h
      cases h
  | some container =>
      simp only [hc] at h
      cases hrm : container.remove_focused_window with
      | none =>
          simp only [hrm] at h
          cases h
      | some pair =>
          obtain ⟨win, c'⟩ := pair
          simp only [hrm] at h
          have hrm2 := mset_remove_focused hrm
          by_cases hemp : c'.windows.isEmpty
          · simp only [hemp, if_true] at h
            split at h
            · next hlen =>
                have hmf := mset_move_finish h
                rw [hmf, mset_all_hwnds, mset_all_hwnds]
                rw [eraseIdx_set_same, mset_tiled_eraseIdx hc]
                have hc' : c'.hwnds = [] := Container.hwnds_of_isEmpty hemp
                rw [hc'] at hrm2
                simp [hrm2, ← Multiset.coe_add, coe_cons_eq]
                abel
            · cases h
          · simp only [hemp, Bool.false_eq_true, if_false] at h
            have hmf := mset_move_finish h
            rw [hmf, mset_all_hwnds, mset_all_hwnds]
            rw [mset_tiled_set hc]
            have htl := mset_tiled_eraseIdx hc
            simp [hrm2, htl, ← Multiset.coe_add, coe_cons_eq]
            abel

theorem monocle_focus_container (w : Workspace) (i : Nat) :
    (w.focus_container i).monocle_container = w.monocle_container := by
  unfold Workspace.focus_container
  split <;> rfl

theorem maximized_focus_container (w : Workspace) (i : Nat) :
    (w.focus_container i).maximized_window = w.maximized_window := by
  unfold Workspace.focus_container
  split <;> rfl

theorem floating_focus_container (w : Workspace) (i : Nat) :
    (w.focus_container i).floating_windows = w.floating_windows := by
  unfold Workspace.focus_container
  split <;> rfl

theorem resize_focus_container (w : Workspace) (i : Nat) :
    (w.focus_container i).resize_dimensions = w.resize_dimensions := by
  unfold Workspace.focus_container
  split <;> rfl

theorem usizeWrapSub1_eq {n : Nat} (h1 : 1 ≤ n) (h2 : n ≤ 2 ^ 64) :
    usizeWrapSub1 n = n - 1 := by
  unfold usizeWrapSub1
  have he : n + (2 ^ 64 - 1) = (n - 1) + 2 ^ 64 := by omega
  rw [he, Nat.add_mod_right]
  exact Nat.mod_eq_of_lt (by omega)

theorem mset_map_hwnd_eraseIdx {l : List Window} {i : Nat} {win : Window}
    (h : l[i]? = some win) :
    (↑(l.map Window.hwnd) : Multiset Int)
      = ↑((l.eraseIdx i).map Window.hwnd) + {win.hwnd} := by
  have h3 : (l.map Window.hwnd)[i]? = some win.hwnd := by
    rw [List.getElem?_map, h]
    rfl
  rw [map_eraseIdx]
  exact mset_eraseIdx_of_getElem? h3

theorem findIdx?_some_getElem? {α : Type} {l : List α} {p : α → Bool} {i : Nat}
    (h : l.findIdx? p = some i) : ∃ a, l[i]? = some a ∧ p a = true := by
  have h2 := List.findIdx?_eq_some_iff_getElem.1 h
  obtain ⟨hi, hp, _⟩ := h2
  exact ⟨l[i], by rw [List.getElem?_eq_getElem hi], hp⟩

theorem mset_filter_ne_of_nodup {l : List Int} {a : Int}
    (hnd : l.Nodup) (ha : a ∈ l) :
    (↑l : Multiset Int) = ↑(l.filter (fun x => ! decide (x = a))) + {a} := by
  induction l with
  | nil => cases ha
  | cons b t ih =>
      rcases List.mem_cons.1 ha with hba | hat
      · subst hba
        have hnotin : a ∉ t := (List.nodup_cons.1 hnd).1
        have hself : t.filter (fun x => ! decide (x = a)) = t :=
          List.filter_eq_self.2 (fun x hx => by
            have hd : decide (x = a) = false :=
              decide_eq_false (fun he => hnotin (he ▸ hx))
            simp [hd])
        have hd : decide (a = a) = true := decide_eq_true rfl
        simp [hself, hd, coe_cons_eq]
      · have hnd2 := (List.nodup_cons.1 hnd).2
        have hba : ¬ b = a := fun he => (List.nodup_cons.1 hnd).1 (he ▸ hat)
        have hd : decide (b = a) = false := decide_eq_false hba
        simp [hd, coe_cons_eq, ih hnd2 hat]
        abel

theorem map_hwnd_filter_ne (l : List Window) (hwnd : Int) :
    (l.filter (fun win => ! decide (win.hwnd = hwnd))).map Window.hwnd
      = (l.map Window.hwnd).filter (fun x => ! decide (x = hwnd)) := by
  induction l with
  | nil => rfl
  | cons a t ih =>
      by_cases ha : a.hwnd = hwnd
      · have hd : decide (a.hwnd = hwnd) = true := decide_eq_true ha
        simp [hd, ih]
      · have hd : decide (a.hwnd = hwnd) = false := decide_eq_false ha
        simp [hd, ih]

theorem mset_new_maximized_window {w w' : Workspace} {fg : Int}
    (hpre : w.maximized_window = none)
    (h : w.new_maximized_window fg = .ok w') :
    (↑w'.all_hwnds : Multiset Int) = ↑w.all_hwnds := by
  unfold Workspace.new_maximized_window at h
  cases hfl : lastMatchFold w.floating_windows (fun x => decide (x.2.hwnd = fg)) with
  | some idx =>
      simp only [hfl] at h
      cases hfw : w.floating_windows[idx]? with
      | none =>
          simp only [hfw] at h
          cases h
      | some fw =>
          simp only [hfw] at h
          injection h with h2
          subst h2
          rw [mset_all_hwnds, mset_all_hwnds, hpre]
          rw [mset_map_hwnd_eraseIdx hfw]
          simp [optWindowHwnd, coe_cons_eq, ← Multiset.coe_add]
          try abel
  | none =>
      simp only [hfl] at h
      cases hmono : w.monocle_container with
      | some mc =>
          simp only [hmono] at h
          cases hrm : mc.remove_focused_window with
          | none =>
              simp only [hrm] at h
              cases h
          | some pair =>
              obtain ⟨win, mc'⟩ := pair
              simp only [hrm] at h
              have hrm2 := mset_remove_focused hrm
              by_cases hemp : mc'.windows.isEmpty
              · simp only [hemp, if_true] at h
                injection h with h2
                subst h2
                rw [mset_all_hwnds, mset_all_hwnds, hmono, hpre]
                have hc' : mc'.hwnds = [] := Container.hwnds_of_isEmpty hemp
                rw [hc'] at hrm2
                simp [optContainerHwnds, optWindowHwnd, hrm2, coe_cons_eq,
                      ← Multiset.coe_add]
                try abel
              · simp only [hemp, Bool.false_eq_true, if_false] at h
                injection h with h2
                subst h2
                rw [mset_all_hwnds, mset_all_hwnds, hmono, hpre]
                simp [optContainerHwnds, optWindowHwnd, hrm2, coe_cons_eq,
                      ← Multiset.coe_add]
                try abel
      | none =>
          simp only [hmono] at h
          cases hc : w.containers[w.focused_container_idx]? with
          | none =>
              simp only [hc] at h
              cases h
          | some container =>
              simp only [hc] at h
              cases hrm : container.remove_focused_window with
              | none =>
                  simp only [hrm] at h
                  cases h
              | some pair =>
                  obtain ⟨win, c'⟩ := pair
                  simp only [hrm] at h
                  have hrm2 := mset_remove_focused hrm
                  by_cases hemp : c'.windows.isEmpty
                  · simp only [hemp, if_true] at h
                    split at h
                    all_goals
                      injection h with h2
                      subst h2
                      rw [all_hwnds_focus_previous, mset_all_hwnds,
                          mset_all_hwnds, hmono, hpre]
                      rw [eraseIdx_set_same, mset_tiled_eraseIdx hc]
                      have hc' : c'.hwnds = [] := Container.hwnds_of_isEmpty hemp
                      rw [hc'] at hrm2
                      simp [optContainerHwnds, optWindowHwnd, hrm2, coe_cons_eq,
                            ← Multiset.coe_add]
                      try abel
                  · simp only [hemp, Bool.false_eq_true, if_false] at h
                    injection h with h2
                    subst h2
                    rw [all_hwnds_focus_previous, mset_all_hwnds,
                        mset_all_hwnds, hmono, hpre]
                    rw [mset_tiled_set hc]
                    have htl := mset_tiled_eraseIdx hc
                    simp [optContainerHwnds, optWindowHwnd, hrm2, htl, coe_cons_eq,
                          ← Multiset.coe_add]
                    try abel

theorem reintegrate_finish_ok {w1 w' : Workspace} {r : Nat} {c : Container}
    (h : w1.reintegrate_finish r c = .ok w') :
    r ≤ w1.containers.length ∧
    w' = { w1 with containers := w1.containers.insertIdx r c, focused := r } := by
  unfold Workspace.reintegrate_finish at h
  split at h
  · next hins =>
      have hlt : r < (w1.containers.insertIdx r c).length := by
        rw [List.length_insertIdx r w1.containers hins]
        omega
      have hfoc :
          (({ w1 with containers := w1.containers.insertIdx r c
            } : Workspace).focus_container r)
            = { w1 with containers := w1.containers.insertIdx r c, focused := r } := by
        unfold Workspace.focus_container
        rw [if_pos hlt]
      have hget : (w1.containers.insertIdx r c)[r]? = some c := by
        rw [List.getElem?_eq_getElem hlt,
            List.getElem_insertIdx_self w1.containers c r hins]
      simp only [hfoc, Workspace.focused_container_idx, hget] at h
      injection h with h2
      subst h2
      exact ⟨hins, rfl⟩
  · cases h

theorem mset_reintegrate_monocle_container {w w' : Workspace}
    (hlen : w.containers.length ≤ 2 ^ 64)
    (h : w.reintegrate_monocle_container = .ok w') :
    (↑w'.all_hwnds : Multiset Int) = ↑w.all_hwnds := by
  unfold Workspace.reintegrate_monocle_container at h
  cases hri : w.monocle_container_restore_idx with
  | none =>
      simp only [hri] at h
      cases h
  | some restore_idx =>
      simp only [hri] at h
      cases hmono : w.monocle_container with
      | none =>
          simp only [hmono] at h
          cases h
      | some container =>
          simp only [hmono] at h
          by_cases hg : restore_idx > usizeWrapSub1 w.containers.length
          · have hpad : w.containers.length ≤ restore_idx := by
              rcases Nat.eq_zero_or_pos w.containers.length with h0 | hpos
              · omega
              · rw [usizeWrapSub1_eq hpos hlen] at hg
                omega
            simp only [hg, if_true] at h
            cases hf : Workspace.reintegrate_finish
                { w with containers := vecResize w.containers restore_idx Container.empty,
                         monocle_container := some container,
                         monocle_container_restore_idx := some restore_idx }
                restore_idx container with
            | panic =>
                simp only [hf] at h
                cases h
            | error w3 =>
                simp only [hf] at h
                cases h
            | ok w3 =>
                simp only [hf] at h
                injection h with h2
                subst h2
                obtain ⟨hins, hw3⟩ := reintegrate_finish_ok hf
                subst hw3
                rw [mset_all_hwnds, mset_all_hwnds, hmono]
                rw [mset_tiled_insertIdx (by simpa using hins) container]
                rw [show tiledHwnds (vecResize w.containers restore_idx Container.empty)
                      = tiledHwnds w.containers from tiledHwnds_vecResize hpad]
                simp [optContainerHwnds, ← Multiset.coe_add]
                try abel
          · simp only [hg, if_false] at h
            cases hf : Workspace.reintegrate_finish w restore_idx container with
            | panic =>
                simp only [hf] at h
                cases h
            | error w3 =>
                simp only [hf] at h
                cases h
            | ok w3 =>
                simp only [hf] at h
                injection h with h2
                subst h2
                obtain ⟨hins, hw3⟩ := reintegrate_finish_ok hf
                subst hw3
                rw [mset_all_hwnds, mset_all_hwnds, hmono]
                rw [mset_tiled_insertIdx hins container]
                simp [optContainerHwnds, ← Multiset.coe_add]
                try abel

theorem mset_reintegrate_maximized_window {w w' : Workspace}
    (h : w.reintegrate_maximized_window = .ok w') :
    (↑w'.all_hwnds : Multiset Int) = ↑w.all_hwnds := by
  unfold Workspace.reintegrate_maximized_window at h
  cases hri : w.maximized_window_restore_idx with
  | none =>
      simp only [hri] at h
      cases h
  | some restore_idx =>
      simp only [hri] at h
      cases hmax : w.maximized_window with
      | none =>
          simp only [hmax] at h
          cases h
      | some window =>
          simp only [hmax] at h
          have hwc : ({ windows := [window], focused := 0 } : Container).hwnds
              = [window.hwnd] := rfl
          by_cases hg : ¬ w.containers.isEmpty = true
              ∧ restore_idx > w.containers.length - 1
          · have hpad : w.containers.length ≤ restore_idx := by
              obtain ⟨hne, hgt⟩ := hg
              have hfalse : w.containers.isEmpty = false := by
                revert hne
                cases w.containers.isEmpty <;> simp
              have hnil : w.containers ≠ [] := by
                intro hnil
                rw [hnil] at hfalse
                simp at hfalse
              have hpos : 0 < w.containers.length := List.length_pos.2 hnil
              omega
            rw [if_pos hg] at h
            cases hf : Workspace.reintegrate_finish
                { w with containers := vecResize w.containers restore_idx Container.empty,
                         maximized_window := some window,
                         maximized_window_restore_idx := some restore_idx }
                restore_idx { windows := [window], focused := 0 } with
            | panic =>
                rw [hf] at h
                cases h
            | error w3 =>
                rw [hf] at h
                cases h
            | ok w3 =>
                rw [hf] at h
                injection h with h2
                subst h2
                obtain ⟨hins, hw3⟩ := reintegrate_finish_ok hf
                subst hw3
                rw [mset_all_hwnds, mset_all_hwnds, hmax]
                rw [mset_tiled_insertIdx (by simpa using hins) _]
                rw [show tiledHwnds (vecResize w.containers restore_idx Container.empty)
                      = tiledHwnds w.containers from tiledHwnds_vecResize hpad, hwc]
                simp [optWindowHwnd, coe_cons_eq, ← Multiset.coe_add]
                try abel
          · rw [if_neg hg] at h
            cases hf : Workspace.reintegrate_finish w restore_idx
                { windows := [window], focused := 0 } with
            | panic =>
                rw [hf] at h
                cases h
            | error w3 =>
                rw [hf] at h
                cases h
            | ok w3 =>
                rw [hf] at h
                injection h with h2
                subst h2
                obtain ⟨hins, hw3⟩ := reintegrate_finish_ok hf
                subst hw3
                rw [mset_all_hwnds, mset_all_hwnds, hmax]
                rw [mset_tiled_insertIdx hins _, hwc]
                simp [optWindowHwnd, coe_cons_eq, ← Multiset.coe_add]
                try abel

theorem mset_remove_window_tiled {w w' : Workspace} {hwnd : Int}
    (h : w.remove_window_tiled hwnd = .ok w') :
    (↑w.all_hwnds : Multiset Int) = ↑w'.all_hwnds + {hwnd} := by
  unfold Workspace.remove_window_tiled at h
  cases hci : w.container_idx_for_window hwnd with
  | none =>
      simp only [hci] at h
      cases h
  | some container_idx =>
      simp only [hci] at h
      cases hc : w.containers[container_idx]? with
      | none =>
          simp only [hc] at h
          cases h
      | some container =>
          simp only [hc] at h
          cases hfi : container.windows.findIdx?
              (fun win => decide (win.hwnd = hwnd)) with
          | none =>
              simp only [hfi] at h
              cases h
          | some window_idx =>
              simp only [hfi] at h
              cases hrm : container.remove_window_by_idx window_idx with
              | none =>
                  simp only [hrm] at h
                  cases h
              | some pair =>
                  obtain ⟨win, c'⟩ := pair
                  simp only [hrm] at h
                  obtain ⟨a, ha, hp⟩ := findIdx?_some_getElem? hfi
                  obtain ⟨hget, hwindows⟩ := remove_window_by_idx_eq_some hrm
                  have haw : a = win := by
                    rw [ha] at hget
                    exact Option.some_injective _ hget
                  have hwh : win.hwnd = hwnd := of_decide_eq_true (haw ▸ hp)
                  have hrm2 := mset_hwnds_remove hrm
                  by_cases hemp : c'.windows.isEmpty
                  · simp only [hemp, if_true] at h
                    cases hg1 : (w.containers.set container_idx c')[container_idx]? with
                    | none =>
                        simp only [hg1] at h
                        cases h
                    | some cx =>
                        simp only [hg1] at h
                        injection h with h2
                        subst h2
                        rw [all_hwnds_focus_previous]
                        have hc' : c'.hwnds = [] := Container.hwnds_of_isEmpty hemp
                        rw [hc'] at hrm2
                        split
                        all_goals
                          rw [mset_all_hwnds, mset_all_hwnds]
                          rw [eraseIdx_set_same, mset_tiled_eraseIdx hc, hrm2, hwh]
                          simp [← Multiset.coe_add]
                          try abel
                  · simp only [hemp, Bool.false_eq_true, if_false] at h
                    injection h with h2
                    subst h2
                    rw [mset_all_hwnds, mset_all_hwnds]
                    rw [mset_tiled_set hc, mset_tiled_eraseIdx hc, hrm2, hwh]
                    simp [← Multiset.coe_add]
                    try abel

theorem mset_remove_window_rest {w w' : Workspace} {hwnd : Int}
    (h : w.remove_window_rest hwnd = .ok w') :
    (↑w.all_hwnds : Multiset Int) = ↑w'.all_hwnds + {hwnd} := by
  unfold Workspace.remove_window_rest at h
  cases hmax : w.maximized_window with
  | none =>
      simp only [hmax] at h
      exact mset_remove_window_tiled h
  | some window =>
      simp only [hmax] at h
      by_cases hw : window.hwnd = hwnd
      · rw [if_pos hw] at h
        injection h with h2
        subst h2
        rw [mset_all_hwnds, mset_all_hwnds, hmax]
        simp [optWindowHwnd, hw, coe_cons_eq, ← Multiset.coe_add]
        try abel
      · rw [if_neg hw] at h
        exact mset_remove_window_tiled h

theorem mset_remove_window {w w' : Workspace} {hwnd : Int}
    (hinv : w.PartitionInv) (h : w.remove_window hwnd = .ok w') :
    (↑w.all_hwnds : Multiset Int) = ↑w'.all_hwnds + {hwnd} := by
  unfold Workspace.remove_window at h
  by_cases hfl : w.floating_windows.any (fun win => decide (win.hwnd = hwnd)) = true
  · rw [if_pos hfl] at h
    injection h with h2
    subst h2
    rw [mset_all_hwnds, mset_all_hwnds]
    have hnd : (w.floating_windows.map Window.hwnd).Nodup := by
      have h1 : w.all_hwnds.Nodup := hinv
      unfold Workspace.all_hwnds at h1
      exact h1.of_append_right
    have hmem : hwnd ∈ w.floating_windows.map Window.hwnd := by
      obtain ⟨win, hwin, hp⟩ := List.any_eq_true.1 hfl
      exact List.mem_map.2 ⟨win, hwin, of_decide_eq_true hp⟩
    have hflt := mset_filter_ne_of_nodup hnd hmem
    simp only [decide_not]
    rw [map_hwnd_filter_ne, hflt]
    try abel
  · rw [if_neg hfl] at h
    cases hmono : w.monocle_container with
    | none =>
        simp only [hmono] at h
        exact mset_remove_window_rest h
    | some container =>
        simp only [hmono] at h
        cases hfi : container.windows.findIdx?
            (fun win => decide (win.hwnd = hwnd)) with
        | none =>
            simp only [hfi] at h
            exact mset_remove_window_rest h
        | some window_idx =>
            simp only [hfi] at h
            cases hrm : container.remove_window_by_idx window_idx with
            | none =>
                simp only [hrm] at h
                cases h
            | some pair =>
                obtain ⟨win, c'⟩ := pair
                simp only [hrm] at h
                obtain ⟨a, ha, hp⟩ := findIdx?_some_getElem? hfi
                obtain ⟨hget, hwindows⟩ := remove_window_by_idx_eq_some hrm
                have haw : a = win := by
                  rw [ha] at hget
                  exact Option.some_injective _ hget
                have hwh : win.hwnd = hwnd := of_decide_eq_true (haw ▸ hp)
                have hrm2 := mset_hwnds_remove hrm
                by_cases hemp : c'.windows.isEmpty
                · simp only [hemp, if_true] at h
                  injection h with h2
                  subst h2
                  rw [mset_all_hwnds, mset_all_hwnds, hmono]
                  have hc' : c'.hwnds = [] := Container.hwnds_of_isEmpty hemp
                  rw [hc'] at hrm2
                  simp [optContainerHwnds, hrm2, hwh, ← Multiset.coe_add]
                  try abel
                · simp only [hemp, Bool.false_eq_true, if_false] at h
                  injection h with h2
                  subst h2
                  rw [mset_all_hwnds, mset_all_hwnds, hmono]
                  simp [optContainerHwnds, hrm2, hwh, ← Multiset.coe_add]
                  try abel

theorem perm_of_mset_conserve {w' : Workspace} {rest : List Int}
    (hm : (↑w'.all_hwnds : Multiset Int) = ↑rest) :
    w'.all_hwnds.Perm rest :=
  Multiset.coe_eq_coe.1 hm

/-- Claim C2 (amended): a successful placement transition taken under its
spec preconditions preserves the partition invariant and conserves the
managed handles: `remove_window` deletes exactly the removed handle,
`new_container_for_window` adds exactly the reported one, and every other
transition leaves the handle collection unchanged up to permutation. -/
theorem claim_C2_partition_invariant (op : Op) (w w' : Workspace)
    (hpre : opPrecond op w) (hinv : w.PartitionInv)
    (hrun : runOp op w = .ok w') :
    w'.PartitionInv ∧ w'.all_hwnds.Perm (opExpectedHwnds op w) := by
  have hinv' : w.all_hwnds.Nodup := hinv
  cases op with
  | new_container_for_window win =>
      unfold runOp at hrun
      injection hrun with h2
      subst h2
      have hpre' : win.hwnd ∉ w.all_hwnds := hpre
      have hm := mset_new_container_for_window w win
      have hperm : (w.new_container_for_window win).all_hwnds.Perm
          (win.hwnd :: w.all_hwnds) := by
        apply Multiset.coe_eq_coe.1
        rw [hm, coe_cons_eq]
      constructor
      · exact hperm.symm.nodup (List.nodup_cons.2 ⟨hpre', hinv'⟩)
      · simpa [opExpectedHwnds] using hperm
  | remove_window hwnd =>
      unfold runOp at hrun
      have hm := mset_remove_window hinv hrun
      have hmem : hwnd ∈ w.all_hwnds := by
        have hmem2 : hwnd ∈ (↑w.all_hwnds : Multiset Int) := by
          rw [hm]
          simp
        simpa using hmem2
      have hpw : List.Perm w.all_hwnds (hwnd :: w.all_hwnds.erase hwnd) :=
        List.perm_cons_erase hmem
      have h1 : (↑(w.all_hwnds.erase hwnd) : Multiset Int) + {hwnd}
          = ↑w'.all_hwnds + {hwnd} := by
        rw [← hm, Multiset.coe_eq_coe.2 hpw, coe_cons_eq]
      have h2 : (↑w'.all_hwnds : Multiset Int) = ↑(w.all_hwnds.erase hwnd) :=
        (add_right_cancel h1).symm
      have hperm := perm_of_mset_conserve h2
      constructor
      · exact hperm.symm.nodup (hinv'.erase hwnd)
      · simpa [opExpectedHwnds] using hperm
  | move_window_to_container target =>
      unfold runOp at hrun
      have hperm := perm_of_mset_conserve (mset_move_window_to_container hrun)
      exact ⟨hperm.symm.nodup hinv', by simpa [opExpectedHwnds] using hperm⟩
  | new_floating_window =>
      unfold runOp at hrun
      have hperm := perm_of_mset_conserve (mset_new_floating_window hrun)
      exact ⟨hperm.symm.nodup hinv', by simpa [opExpectedHwnds] using hperm⟩
  | new_monocle_container =>
      unfold runOp at hrun
      have hpre' : w.monocle_container = none := hpre
      have hperm := perm_of_mset_conserve (mset_new_monocle_container hpre' hrun)
      exact ⟨hperm.symm.nodup hinv', by simpa [opExpectedHwnds] using hperm⟩
  | reintegrate_monocle_container =>
      unfold runOp at hrun
      have hpre' : w.containers.length ≤ 2 ^ 64 := hpre
      have hperm := perm_of_mset_conserve
        (mset_reintegrate_monocle_container hpre' hrun)
      exact ⟨hperm.symm.nodup hinv', by simpa [opExpectedHwnds] using hperm⟩
  | new_maximized_window fg =>
      unfold runOp at hrun
      have hpre' : w.maximized_window = none := hpre
      have hperm := perm_of_mset_conserve (mset_new_maximized_window hpre' hrun)
      exact ⟨hperm.symm.nodup hinv', by simpa [opExpectedHwnds] using hperm⟩
  | reintegrate_maximized_window =>
      unfold runOp at hrun
      have hperm := perm_of_mset_conserve (mset_reintegrate_maximized_window hrun)
      exact ⟨hperm.symm.nodup hinv', by simpa [opExpectedHwnds] using hperm⟩

theorem focus_previous_eta (w : Workspace) :
    w.focus_previous_container
      = { w with focused := w.focus_previous_container.focused } := by
  unfold Workspace.focus_previous_container Workspace.focus_container
    Workspace.focused_container_idx
  split
  · split <;> rfl
  · rfl

theorem insertIdx_eraseIdx_getElem {α : Type} :
    ∀ (l : List α) (i : Nat) (a : α),
      l[i]? = some a → (l.eraseIdx i).insertIdx i a = l
  | [], i, a, h => by simp at h
  | b :: t, 0, a, h => by
      have hb : b = a := by simpa using h
      subst hb
      rfl
  | b :: t, i + 1, a, h => by
      have ht : t[i]? = some a := by simpa using h
      simp only [List.eraseIdx_cons_succ, List.insertIdx_succ_cons]
      rw [insertIdx_eraseIdx_getElem t i a ht]

theorem getElem?_insertIdx_self {α : Type} {l : List α} {n : Nat}
    (h : n ≤ l.length) (x : α) : (l.insertIdx n x)[n]? = some x := by
  have hlt : n < (l.insertIdx n x).length := by
    rw [List.length_insertIdx n l h]
    omega
  rw [List.getElem?_eq_getElem hlt, List.getElem_insertIdx_self l x n h]

theorem reintegrate_finish_eval {w1 : Workspace} {r : Nat} {c : Container}
    (hle : r ≤ w1.containers.length) :
    w1.reintegrate_finish r c
      = .ok { w1 with containers := w1.containers.insertIdx r c, focused := r } := by
  unfold Workspace.reintegrate_finish
  rw [if_pos hle]
  have hlt : r < (w1.containers.insertIdx r c).length := by
    rw [List.length_insertIdx r w1.containers hle]
    omega
  have hfoc :
      (({ w1 with containers := w1.containers.insertIdx r c
        } : Workspace).focus_container r)
        = { w1 with containers := w1.containers.insertIdx r c, focused := r } := by
    unfold Workspace.focus_container
    rw [if_pos hlt]
  have hget : (w1.containers.insertIdx r c)[r]? = some c :=
    getElem?_insertIdx_self hle c
  simp only [hfoc, Workspace.focused_container_idx, hget]

theorem reintegrate_monocle_eval {w : Workspace} {r : Nat} {c : Container}
    (hri : w.monocle_container_restore_idx = some r)
    (hmono : w.monocle_container = some c)
    (hng : ¬ r > usizeWrapSub1 w.containers.length)
    (hle : r ≤ w.containers.length) :
    w.reintegrate_monocle_container
      = .ok { w with containers := w.containers.insertIdx r c, focused := r,
                     monocle_container := none,
                     monocle_container_restore_idx := none } := by
  unfold Workspace.reintegrate_monocle_container
  simp only [hri, hmono]
  rw [if_neg hng, reintegrate_finish_eval hle]

theorem reintegrate_monocle_eval_padded {w : Workspace} {r : Nat} {c : Container}
    (hri : w.monocle_container_restore_idx = some r)
    (hmono : w.monocle_container = some c)
    (hg : r > usizeWrapSub1 w.containers.length)
    (hle : r ≤ (vecResize w.containers r Container.empty).length) :
    w.reintegrate_monocle_container
      = .ok { w with
              containers := (vecResize w.containers r Container.empty).insertIdx r c,
              focused := r,
              monocle_container := none,
              monocle_container_restore_idx := none } := by
  unfold Workspace.reintegrate_monocle_container
  simp only [hri, hmono]
  rw [if_pos hg,
      reintegrate_finish_eval
        (show r ≤ ({ w with
              containers := vecResize w.containers r Container.empty,
              monocle_container := some c,
              monocle_container_restore_idx := some r
            } : Workspace).containers.length
          from hle)]

theorem reintegrate_maximized_eval {w : Workspace} {r : Nat} {win : Window}
    (hri : w.maximized_window_restore_idx = some r)
    (hmax : w.maximized_window = some win)
    (hng : ¬ (¬ w.containers.isEmpty = true ∧ r > w.containers.length - 1))
    (hle : r ≤ w.containers.length) :
    w.reintegrate_maximized_window
      = .ok { w with
              containers := w.containers.insertIdx r { windows := [win], focused := 0 },
              focused := r,
              maximized_window := none,
              maximized_window_restore_idx := none } := by
  unfold Workspace.reintegrate_maximized_window
  simp only [hri, hmax]
  rw [if_neg hng, reintegrate_finish_eval hle]

theorem reintegrate_maximized_eval_padded {w : Workspace} {r : Nat} {win : Window}
    (hri : w.maximized_window_restore_idx = some r)
    (hmax : w.maximized_window = some win)
    (hg : ¬ w.containers.isEmpty = true ∧ r > w.containers.length - 1)
    (hle : r ≤ (vecResize w.containers r Container.empty).length) :
    w.reintegrate_maximized_window
      = .ok { w with
              containers := (vecResize w.containers r Container.empty).insertIdx r
                              { windows := [win], focused := 0 },
              focused := r,
              maximized_window := none,
              maximized_window_restore_idx := none } := by
  unfold Workspace.reintegrate_maximized_window
  simp only [hri, hmax]
  rw [if_pos hg,
      reintegrate_finish_eval
        (show r ≤ ({ w with
              containers := vecResize w.containers r Container.empty,
              maximized_window := some win,
              maximized_window_restore_idx := some r
            } : Workspace).containers.length
          from hle)]

theorem new_monocle_eval {w : Workspace} {c : Container}
    (hc : w.containers[w.focused]? = some c) :
    w.new_monocle_container = .ok
      (({ w with containers := w.containers.eraseIdx w.focused,
                 monocle_container := some c,
                 monocle_container_restore_idx := some w.focused
        } : Workspace).focus_previous_container) := by
  unfold Workspace.new_monocle_container Workspace.focused_container_idx
  simp only [hc]

theorem new_maximized_tiled_eval_keep {w : Workspace} {fg : Int} {c : Container}
    {win : Window} {c' : Container}
    (hfl : lastMatchFold w.floating_windows (fun x => decide (x.2.hwnd = fg)) = none)
    (hmono : w.monocle_container = none)
    (hc : w.containers[w.focused]? = some c)
    (hrm : c.remove_focused_window = some (win, c'))
    (hemp : c'.windows.isEmpty = false) :
    w.new_maximized_window fg = .ok
      (({ w with containers := w.containers.set w.focused c',
                 maximized_window := some win,
                 maximized_window_restore_idx := some w.focused
        } : Workspace).focus_previous_container) := by
  unfold Workspace.new_maximized_window Workspace.focused_container_idx
  simp only [hfl, hmono, hc, hrm, hemp, Bool.false_eq_true, if_false]

theorem new_maximized_tiled_eval_empty {w : Workspace} {fg : Int} {c : Container}
    {win : Window} {c' : Container}
    (hfl : lastMatchFold w.floating_windows (fun x => decide (x.2.hwnd = fg)) = none)
    (hmono : w.monocle_container = none)
    (hc : w.containers[w.focused]? = some c)
    (hrm : c.remove_focused_window = some (win, c'))
    (hemp : c'.windows.isEmpty = true) :
    w.new_maximized_window fg = .ok
      (({ w with containers := (w.containers.set w.focused c').eraseIdx w.focused,
                 resize_dimensions :=
                   if w.focused < w.resize_dimensions.length
                   then w.resize_dimensions.eraseIdx w.focused
                   else w.resize_dimensions,
                 maximized_window := some win,
                 maximized_window_restore_idx := some w.focused
        } : Workspace).focus_previous_container) := by
  unfold Workspace.new_maximized_window Workspace.focused_container_idx
  simp only [hfl, hmono, hc, hrm, hemp, if_true]
  by_cases hrs : w.focused < w.resize_dimensions.length
  · rw [if_pos hrs, if_pos hrs]
  · rw [if_neg hrs, if_neg hrs]

theorem usizeWrapSub1_zero : usizeWrapSub1 0 = 2 ^ 64 - 1 := by
  unfold usizeWrapSub1
  exact Nat.mod_eq_of_lt (by norm_num)

theorem containers_focus_previous (w : Workspace) :
    w.focus_previous_container.containers = w.containers := by
  unfold Workspace.focus_previous_container
  split
  · exact containers_focus_container w _
  · rfl

theorem monocle_focus_previous (w : Workspace) :
    w.focus_previous_container.monocle_container = w.monocle_container := by
  unfold Workspace.focus_previous_container
  split
  · exact monocle_focus_container w _
  · rfl

theorem monocle_restore_focus_container (w : Workspace) (i : Nat) :
    (w.focus_container i).monocle_container_restore_idx
      = w.monocle_container_restore_idx := by
  unfold Workspace.focus_container
  split <;> rfl

theorem monocle_restore_focus_previous (w : Workspace) :
    w.focus_previous_container.monocle_container_restore_idx
      = w.monocle_container_restore_idx := by
  unfold Workspace.focus_previous_container
  split
  · exact monocle_restore_focus_container w _
  · rfl

theorem maximized_focus_previous (w : Workspace) :
    w.focus_previous_container.maximized_window = w.maximized_window := by
  unfold Workspace.focus_previous_container
  split
  · exact maximized_focus_container w _
  · rfl

theorem maximized_restore_focus_container (w : Workspace) (i : Nat) :
    (w.focus_container i).maximized_window_restore_idx
      = w.maximized_window_restore_idx := by
  unfold Workspace.focus_container
  split <;> rfl

theorem maximized_restore_focus_previous (w : Workspace) :
    w.focus_previous_container.maximized_window_restore_idx
      = w.maximized_window_restore_idx := by
  unfold Workspace.focus_previous_container
  split
  · exact maximized_restore_focus_container w _
  · rfl

theorem resize_focus_previous (w : Workspace) :
    w.focus_previous_container.resize_dimensions = w.resize_dimensions := by
  unfold Workspace.focus_previous_container
  split
  · exact resize_focus_container w _
  · rfl

theorem floating_focus_previous (w : Workspace) :
    w.focus_previous_container.floating_windows = w.floating_windows := by
  unfold Workspace.focus_previous_container
  split
  · exact floating_focus_container w _
  · rfl

theorem monocle_roundtrip (w : Workspace) (hf : w.focused < w.containers.length)
    (hlen : w.containers.length ≤ 2 ^ 64) :
    ((w.new_monocle_container).okState.bind
        (fun w1 => w1.reintegrate_monocle_container.okState)).map
        (fun w2 => (w2.containers, w2.focused))
      = some (w.containers, w.focused) := by
  have hc : w.containers[w.focused]? = some w.containers[w.focused] :=
    List.getElem?_eq_getElem hf
  rw [new_monocle_eval hc]
  simp only [StepResult.okState, Option.bind]
  have hri := monocle_restore_focus_previous
    ({ w with containers := w.containers.eraseIdx w.focused,
              monocle_container := some w.containers[w.focused],
              monocle_container_restore_idx := some w.focused } : Workspace)
  have hmo := monocle_focus_previous
    ({ w with containers := w.containers.eraseIdx w.focused,
              monocle_container := some w.containers[w.focused],
              monocle_container_restore_idx := some w.focused } : Workspace)
  have hco := containers_focus_previous
    ({ w with containers := w.containers.eraseIdx w.focused,
              monocle_container := some w.containers[w.focused],
              monocle_container_restore_idx := some w.focused } : Workspace)
  have hel : (w.containers.eraseIdx w.focused).length + 1 = w.containers.length :=
    List.length_eraseIdx_add_one hf
  by_cases hg : w.focused > usizeWrapSub1 (w.containers.eraseIdx w.focused).length
  · have h1 : 1 ≤ (w.containers.eraseIdx w.focused).length := by
      by_contra h0
      have h0' : (w.containers.eraseIdx w.focused).length = 0 := by omega
      rw [h0', usizeWrapSub1_zero] at hg
      omega
    have hg2 := hg
    rw [usizeWrapSub1_eq h1 (by omega)] at hg2
    have hfm : w.focused = (w.containers.eraseIdx w.focused).length := by omega
    have hvec : vecResize (w.containers.eraseIdx w.focused) w.focused Container.empty
        = w.containers.eraseIdx w.focused := by
      unfold vecResize
      rw [if_pos (le_of_eq hfm)]
      exact List.take_of_length_le (by omega)
    rw [reintegrate_monocle_eval_padded hri hmo (by rw [hco]; exact hg)
          (by
            rw [hco]
            show w.focused ≤ (vecResize (w.containers.eraseIdx w.focused)
                w.focused Container.empty).length
            rw [hvec]
            omega)]
    simp only [StepResult.okState, Option.map, hco, hvec,
               insertIdx_eraseIdx_getElem w.containers w.focused _ hc]
  · rw [reintegrate_monocle_eval hri hmo (by rw [hco]; exact hg)
          (by
            rw [hco]
            show w.focused ≤ (w.containers.eraseIdx w.focused).length
            omega)]
    simp only [StepResult.okState, Option.map, hco,
               insertIdx_eraseIdx_getElem w.containers w.focused _ hc]

theorem lt_of_getElem?_eq_some {α : Type} {l : List α} {i : Nat} {a : α}
    (h : l[i]? = some a) : i < l.length := by
  by_contra hc
  simp [List.getElem?_eq_none (Nat.le_of_not_lt hc)] at h

theorem maximize_roundtrip (w : Workspace) (fg : Int) (c : Container)
    (win : Window) (c' : Container)
    (hfl : lastMatchFold w.floating_windows (fun x => decide (x.2.hwnd = fg)) = none)
    (hmono : w.monocle_container = none)
    (hc : w.containers[w.focused]? = some c)
    (hrm : c.remove_focused_window = some (win, c')) :
    ((w.new_maximized_window fg).okState.bind
        (fun w1 => w1.reintegrate_maximized_window.okState)).bind
        (fun w2 => (w2.containers[w.focused]?).map (fun cr => (cr.windows, w2.focused)))
      = some ([win], w.focused) := by
  have hf : w.focused < w.containers.length := lt_of_getElem?_eq_some hc
  cases hemp : c'.windows.isEmpty with
  | false =>
      rw [new_maximized_tiled_eval_keep hfl hmono hc hrm hemp]
      simp only [StepResult.okState, Option.bind]
      have hri := maximized_restore_focus_previous
        ({ w with containers := w.containers.set w.focused c',
                  maximized_window := some win,
                  maximized_window_restore_idx := some w.focused } : Workspace)
      have hma := maximized_focus_previous
        ({ w with containers := w.containers.set w.focused c',
                  maximized_window := some win,
                  maximized_window_restore_idx := some w.focused } : Workspace)
      have hco := containers_focus_previous
        ({ w with containers := w.containers.set w.focused c',
                  maximized_window := some win,
                  maximized_window_restore_idx := some w.focused } : Workspace)
      have hlen_set : (w.containers.set w.focused c').length = w.containers.length :=
        List.length_set w.containers w.focused c'
      rw [reintegrate_maximized_eval hri hma
            (by
              rw [hco]
              show ¬ (¬ (w.containers.set w.focused c').isEmpty = true
                  ∧ w.focused > (w.containers.set w.focused c').length - 1)
              intro hx
              rw [hlen_set] at hx
              omega)
            (by
              rw [hco]
              show w.focused ≤ (w.containers.set w.focused c').length
              omega)]
      simp only [StepResult.okState, Option.bind, Option.map, hco]
      rw [getElem?_insertIdx_self (by omega : w.focused ≤ (w.containers.set
            w.focused c').length) ({ windows := [win], focused := 0 } : Container)]
  | true =>
      rw [new_maximized_tiled_eval_empty hfl hmono hc hrm hemp, eraseIdx_set_same]
      simp only [StepResult.okState, Option.bind]
      have hri := maximized_restore_focus_previous
        ({ w with containers := w.containers.eraseIdx w.focused,
                  resize_dimensions :=
                    if w.focused < w.resize_dimensions.length
                    then w.resize_dimensions.eraseIdx w.focused
                    else w.resize_dimensions,
                  maximized_window := some win,
                  maximized_window_restore_idx := some w.focused } : Workspace)
      have hma := maximized_focus_previous
        ({ w with containers := w.containers.eraseIdx w.focused,
                  resize_dimensions :=
                    if w.focused < w.resize_dimensions.length
                    then w.resize_dimensions.eraseIdx w.focused
                    else w.resize_dimensions,
                  maximized_window := some win,
                  maximized_window_restore_idx := some w.focused } : Workspace)
      have hco := containers_focus_previous
        ({ w with containers := w.containers.eraseIdx w.focused,
                  resize_dimensions :=
                    if w.focused < w.resize_dimensions.length
                    then w.resize_dimensions.eraseIdx w.focused
                    else w.resize_dimensions,
                  maximized_window := some win,
                  maximized_window_restore_idx := some w.focused } : Workspace)
      have hel : (w.containers.eraseIdx w.focused).length + 1 = w.containers.length :=
        List.length_eraseIdx_add_one hf
      by_cases hg : ¬ (w.containers.eraseIdx w.focused).isEmpty = true
          ∧ w.focused > (w.containers.eraseIdx w.focused).length - 1
      · obtain ⟨hne, hgt⟩ := hg
        have h1 : 1 ≤ (w.containers.eraseIdx w.focused).length := by
          have hfalse : (w.containers.eraseIdx w.focused).isEmpty = false := by
            revert hne
            cases (w.containers.eraseIdx w.focused).isEmpty <;> simp
          have hnil : w.containers.eraseIdx w.focused ≠ [] := by
            intro hnil
            rw [hnil] at hfalse
            simp at hfalse
          have := List.length_pos.2 hnil
          omega
        have hfm : w.focused = (w.containers.eraseIdx w.focused).length := by omega
        have hvec : vecResize (w.containers.eraseIdx w.focused) w.focused
            Container.empty = w.containers.eraseIdx w.focused := by
          unfold vecResize
          rw [if_pos (le_of_eq hfm)]
          exact List.take_of_length_le (by omega)
        rw [reintegrate_maximized_eval_padded hri hma
              (by
                rw [hco]
                exact ⟨hne, hgt⟩)
              (by
                rw [hco]
                show w.focused ≤ (vecResize (w.containers.eraseIdx w.focused)
                    w.focused Container.empty).length
                rw [hvec]
                omega)]
        simp only [StepResult.okState, Option.bind, Option.map, hco, hvec]
        rw [getElem?_insertIdx_self (by omega : w.focused
              ≤ (w.containers.eraseIdx w.focused).length)
            ({ windows := [win], focused := 0 } : Container)]
      · rw [reintegrate_maximized_eval hri hma
              (by
                rw [hco]
                exact hg)
              (by
                rw [hco]
                show w.focused ≤ (w.containers.eraseIdx w.focused).length
                omega)]
        simp only [StepResult.okState, Option.bind, Option.map, hco]
        rw [getElem?_insertIdx_self (by omega : w.focused
              ≤ (w.containers.eraseIdx w.focused).length)
            ({ windows := [win], focused := 0 } : Container)]

/-- Claim C7: with no intervening structural change, new_monocle_container
followed by reintegrate_monocle_container restores the tiled ring and the
focused index exactly, and new_maximized_window (from a tiled source)
followed by reintegrate_maximized_window restores the window to the tiled
index it was removed from, focused there. -/
theorem claim_C7_round_trip :
    (∀ w : Workspace, w.focused < w.containers.length →
        w.containers.length ≤ 2 ^ 64 →
        ((w.new_monocle_container).okState.bind
            (fun w1 => w1.reintegrate_monocle_container.okState)).map
            (fun w2 => (w2.containers, w2.focused))
          = some (w.containers, w.focused)) ∧
    (∀ (w : Workspace) (fg : Int) (c : Container) (win : Window) (c' : Container),
        lastMatchFold w.floating_windows (fun x => decide (x.2.hwnd = fg)) = none →
        w.monocle_container = none →
        w.containers[w.focused]? = some c →
        c.remove_focused_window = some (win, c') →
        ((w.new_maximized_window fg).okState.bind
            (fun w1 => w1.reintegrate_maximized_window.okState)).bind
            (fun w2 => (w2.containers[w.focused]?).map
              (fun cr => (cr.windows, w2.focused)))
          = some ([win], w.focused)) :=
  ⟨monocle_roundtrip, maximize_roundtrip⟩

/-- Witness for claim C7: the spec's three-container test (monocle the
second of three, reintegrate immediately, focused index is 1 again with
the ring unchanged), plus a maximize round-trip on a one-container
workspace. -/
theorem claim_C7_witness :
    ((wsRoundTrip.new_monocle_container).okState.bind
        (fun w1 => w1.reintegrate_monocle_container.okState)).map
        (fun w2 => (w2.containers, w2.focused))
      = some (wsRoundTrip.containers, 1) ∧
    ((wsFloatFg.new_maximized_window 41).okState.bind
        (fun w1 => w1.reintegrate_maximized_window.okState)).bind
        (fun w2 => (w2.containers[wsFloatFg.focused]?).map
          (fun cr => (cr.windows, w2.focused)))
      = some ([⟨40, none⟩], 0) :=
  ⟨claim_C7_round_trip.1 wsRoundTrip (by decide) (by decide),
   claim_C7_round_trip.2 wsFloatFg 41 { windows := [⟨40, none⟩], focused := 0 }
     ⟨40, none⟩ { windows := [], focused := 0 }
     (by decide) (by decide) (by decide) (by decide)⟩

/-- Claim C3 (code bug): the no-panic guarantee fails. With an empty tiled
ring and a stale monocle restore index (reachable by monocling the third
of three containers and then removing every remaining tiled window),
reintegrate_monocle_container skips padding because the wrapping
`len() - 1` underflows, and `VecDeque::insert` aborts; promote_container
on a workspace with empty resize_dimensions aborts in
`resize_dimensions.remove(0)`. -/
theorem claim_C3_no_panic_violated :
    wsMonocleStale.reintegrate_monocle_container = .panic ∧
    emptyWorkspace.promote_container = .panic := by decide

/-- Counterexample for claim C2: move_window_to_container with an
out-of-range target removes the focused window, destroys its container,
and then fails, dropping handle 11 from all four placement states. -/
theorem claim_C2_counterexample :
    (wsLoneC2.move_window_to_container 3).errState.map Workspace.all_hwnds
      = some [] ∧
    wsLoneC2.all_hwnds = [11] := by decide

/-- Witness for claim C2: new_floating_window on a workspace whose only
managed window is maximized moves that window to the floating list,
preserving the partition. -/
theorem claim_C2_witness :
    Workspace.PartitionInv wsMax9 ∧
    runOp Op.new_floating_window wsMax9 = .ok wsMax9Floated ∧
    Workspace.PartitionInv wsMax9Floated ∧
    wsMax9Floated.all_hwnds.Perm (opExpectedHwnds Op.new_floating_window wsMax9) :=
  ⟨by decide, by decide,
   (claim_C2_partition_invariant Op.new_floating_window wsMax9 wsMax9Floated
      trivial (by decide) (by decide)).1,
   (claim_C2_partition_invariant Op.new_floating_window wsMax9 wsMax9Floated
      trivial (by decide) (by decide)).2⟩

theorem remove_window_tiled_error_unchanged {w w' : Workspace} {hwnd : Int}
    (h : w.remove_window_tiled hwnd = .error w') : w' = w := by
  unfold Workspace.remove_window_tiled at h
  cases hci : w.container_idx_for_window hwnd with
  | none =>
      simp only [hci] at h
      injection h with h2
      exact h2.symm
  | some container_idx =>
      simp only [hci] at h
      cases hc : w.containers[container_idx]? with
      | none =>
          simp only [hc] at h
          injection h with h2
          exact h2.symm
      | some container =>
          simp only [hc] at h
          cases hfi : container.windows.findIdx?
              (fun win => decide (win.hwnd = hwnd)) with
          | none =>
              simp only [hfi] at h
              injection h with h2
              exact h2.symm
          | some window_idx =>
              simp only [hfi] at h
              cases hrm : container.remove_window_by_idx window_idx with
              | none =>
                  simp only [hrm] at h
                  injection h with h2
                  exact h2.symm
              | some pair =>
                  obtain ⟨win, c'⟩ := pair
                  simp only [hrm] at h
                  by_cases hemp : c'.windows.isEmpty
                  · simp only [hemp, if_true] at h
                    have hlt : container_idx < w.containers.length :=
                      lt_of_getElem?_eq_some hc
                    rw [List.getElem?_set_self hlt] at h
                    cases h
                  · simp only [hemp, Bool.false_eq_true, if_false] at h
                    cases h

theorem remove_window_rest_error_unchanged {w w' : Workspace} {hwnd : Int}
    (h : w.remove_window_rest hwnd = .error w') : w' = w := by
  unfold Workspace.remove_window_rest at h
  cases hmax : w.maximized_window with
  | none =>
      simp only [hmax] at h
      exact remove_window_tiled_error_unchanged h
  | some window =>
      simp only [hmax] at h
      by_cases hw : window.hwnd = hwnd
      · rw [if_pos hw] at h
        cases h
      · rw [if_neg hw] at h
        exact remove_window_tiled_error_unchanged h

/-- Claim C1 (amended): failures that are detected during the initial
lookups mutate nothing — any error return of remove_window carries the
workspace unchanged, and move_window_to_container fails without mutation
when there is no focused container or no focused window. (The later
failure of move_window_to_container, an out-of-range target index, and
every failure of promote_container occur after mutation has begun; see
the counterexample.) -/
theorem claim_C1_error_atomicity :
    (∀ (w w' : Workspace) (hwnd : Int),
        w.remove_window hwnd = .error w' → w' = w) ∧
    (∀ (w : Workspace) (t : Nat), w.focused_container = none →
        w.move_window_to_container t = .error w) ∧
    (∀ (w : Workspace) (t : Nat) (c : Container), w.focused_container = some c →
        c.remove_focused_window = none →
        w.move_window_to_container t = .error w) := by
  refine ⟨?_, ?_, ?_⟩
  · intro w w' hwnd h
    unfold Workspace.remove_window at h
    by_cases hfl : w.floating_windows.any (fun win => decide (win.hwnd = hwnd)) = true
    · rw [if_pos hfl] at h
      cases h
    · rw [if_neg hfl] at h
      cases hmono : w.monocle_container with
      | none =>
          simp only [hmono] at h
          exact remove_window_rest_error_unchanged h
      | some container =>
          simp only [hmono] at h
          cases hfi : container.windows.findIdx?
              (fun win => decide (win.hwnd = hwnd)) with
          | none =>
              simp only [hfi] at h
              exact remove_window_rest_error_unchanged h
          | some window_idx =>
              simp only [hfi] at h
              cases hrm : container.remove_window_by_idx window_idx with
              | none =>
                  simp only [hrm] at h
                  injection h with h2
                  exact h2.symm
              | some pair =>
                  obtain ⟨win, c'⟩ := pair
                  simp only [hrm] at h
                  by_cases hemp : c'.windows.isEmpty
                  · simp only [hemp, if_true] at h
                    cases h
                  · simp only [hemp, Bool.false_eq_true, if_false] at h
                    cases h
  · intro w t hb
    unfold Workspace.focused_container at hb
    unfold Workspace.move_window_to_container Workspace.focused_container_idx
    simp only [hb]
  · intro w t c hc hrm
    unfold Workspace.focused_container at hc
    unfold Workspace.move_window_to_container Workspace.focused_container_idx
    simp only [hc, hrm]

/-- Counterexample for claim C1: move_window_to_container with an
out-of-range target returns an error, but the workspace it leaves behind
differs from the pre-call state (the focused window was removed and its
container destroyed before the failing target lookup). -/
theorem claim_C1_counterexample :
    (wsLoneC1.move_window_to_container 5).errState.isSome = true ∧
    (wsLoneC1.move_window_to_container 5).errState ≠ some wsLoneC1 := by decide

/-- Witness for claim C1: the lookup-failure paths at concrete states —
removing an unmanaged handle errors with the state unchanged, and
move_window_to_container errors without mutation on an empty workspace
and on a workspace whose focused container has no window. -/
theorem claim_C1_witness :
    wsLoneC1 = wsLoneC1 ∧
    emptyWorkspace.move_window_to_container 0 = .error emptyWorkspace ∧
    wsEmptyCont.move_window_to_container 0 = .error wsEmptyCont :=
  ⟨claim_C1_error_atomicity.1 wsLoneC1 wsLoneC1 99 (by decide),
   claim_C1_error_atomicity.2.1 emptyWorkspace 0 (by decide),
   claim_C1_error_atomicity.2.2 wsEmptyCont 0 { windows := [], focused := 0 }
     (by decide) (by decide)⟩

theorem foldl_lastMatch {α : Type} (q : Nat × α → Bool) :
    ∀ (l : List (Nat × α)) (init : Option Nat),
      l.foldl (fun acc x => if q x then some x.1 else acc) init
        = (match (l.filter q).getLast? with
           | some y => some y.1
           | none => init)
  | [], _ => rfl
  | a :: t, init => by
      rw [List.foldl_cons, foldl_lastMatch q t]
      by_cases hq : q a = true
      · rw [List.filter_cons_of_pos hq, if_pos hq]
        cases hft : (t.filter q).getLast? with
        | some y => simp [List.getLast?_cons, hft]
        | none => simp [List.getLast?_cons, hft]
      · rw [List.filter_cons_of_neg (by simpa using hq), if_neg hq]

theorem lastMatchFold_eq {α : Type} (l : List α) (q : Nat × α → Bool) :
    lastMatchFold l q = ((l.enum.filter q).getLast?).map Prod.fst := by
  unfold lastMatchFold
  rw [foldl_lastMatch q l.enum none]
  cases (l.enum.filter q).getLast? <;> rfl

theorem lastMatchFold_some {α : Type} {l : List α} {q : Nat × α → Bool} {i : Nat}
    (h : lastMatchFold l q = some i) :
    ∃ a, l[i]? = some a ∧ q (i, a) = true := by
  rw [lastMatchFold_eq] at h
  cases hg : (l.enum.filter q).getLast? with
  | none =>
      rw [hg] at h
      cases h
  | some y =>
      rw [hg] at h
      obtain ⟨j, a⟩ := y
      have hj : j = i := by simpa using h
      subst hj
      have hmem := List.mem_of_getLast?_eq_some hg
      have hmem2 := List.mem_filter.1 hmem
      have henum := List.mem_enum_iff_getElem?.1 hmem2.1
      exact ⟨a, henum, hmem2.2⟩

/-- Claim C9: point hit-testing scans the ring without short-circuiting,
returning the last ring index whose latest-layout rectangle contains the
point, and nothing when no rectangle contains it. -/
theorem claim_C9_last_match_hit_test (w : Workspace) (point : Int × Int) :
    w.container_idx_from_current_point point
      = ((w.containers.enum.filter (fun x =>
            match w.latest_layout[x.1]? with
            | some rect => rect.contains_point point
            | none => false)).getLast?).map Prod.fst := by
  unfold Workspace.container_idx_from_current_point
  have hstep : (fun (acc : Option Nat) (x : Nat × Container) =>
      match w.latest_layout[x.1]? with
      | some rect => if rect.contains_point point then some x.1 else acc
      | none => acc)
      = (fun acc x => if (match w.latest_layout[x.1]? with
            | some rect => rect.contains_point point
            | none => false) then some x.1 else acc) := by
    funext acc x
    cases w.latest_layout[x.1]? with
    | some rect => by_cases hr : rect.contains_point point <;> simp [hr]
    | none => simp
  rw [hstep, foldl_lastMatch]
  cases (w.containers.enum.filter (fun x =>
      match w.latest_layout[x.1]? with
      | some rect => rect.contains_point point
      | none => false)).getLast? <;> rfl

theorem findSome?_append_eq {α β : Type} (f : α → Option β) :
    ∀ (l l' : List α), (l ++ l').findSome? f =
      match l.findSome? f with
      | some b => some b
      | none => l'.findSome? f
  | [], _ => rfl
  | a :: t, l' => by
      rw [List.cons_append]
      simp only [List.findSome?_cons]
      cases f a with
      | some b => rfl
      | none => exact findSome?_append_eq f t l'

theorem findSome?_map_id {α β : Type} (f : α → Option β) :
    ∀ (l : List α), (l.map f).findSome? id = l.findSome? f
  | [] => rfl
  | a :: t => by
      rw [List.map_cons]
      simp only [List.findSome?_cons, id]
      cases f a with
      | some b => rfl
      | none => exact findSome?_map_id f t

theorem findSome?_singleton_id {β : Type} (x : Option β) :
    ([x] : List (Option β)).findSome? id = x := by
  cases x <;> rfl

theorem hwnd_from_exe_eq_spec (w : Workspace) (exe : String) :
    w.hwnd_from_exe exe = hwnd_from_exe_spec w exe := by
  unfold Workspace.hwnd_from_exe hwnd_from_exe_spec
  rw [findSome?_append_eq, findSome?_append_eq, findSome?_append_eq,
      findSome?_map_id, findSome?_map_id, findSome?_singleton_id,
      findSome?_singleton_id]
  cases hA : w.containers.findSome? (fun c => c.hwnd_from_exe exe) with
  | some b => rfl
  | none =>
      cases hB : w.maximized_window.bind (fun win => win.exe_match exe) with
      | some b => rfl
      | none =>
          cases hC : w.monocle_container.bind (fun c => c.hwnd_from_exe exe) with
          | some b => rfl
          | none => rfl

theorem mem_hwnds_iff {c : Container} {hwnd : Int} :
    hwnd ∈ c.hwnds ↔ c.contains_window hwnd = true := by
  simp [Container.hwnds, Container.contains_window, List.any_eq_true]

theorem mem_tiledHwnds_iff {l : List Container} {hwnd : Int} :
    hwnd ∈ tiledHwnds l ↔
      l.any (fun c => c.contains_window hwnd) = true := by
  induction l with
  | nil => simp [tiledHwnds]
  | cons c t ih =>
      have hc : tiledHwnds (c :: t) = c.hwnds ++ tiledHwnds t := by
        simp [tiledHwnds]
      rw [hc]
      simp only [List.mem_append, List.any_cons, Bool.or_eq_true,
        mem_hwnds_iff, ih]

theorem mem_map_hwnd_iff_any {l : List Window} {hwnd : Int} :
    hwnd ∈ l.map Window.hwnd ↔
      l.any (fun win => decide (hwnd = win.hwnd)) = true := by
  simp only [List.mem_map, List.any_eq_true, decide_eq_true_eq]
  constructor
  · rintro ⟨win, hm, he⟩
    exact ⟨win, hm, he.symm⟩
  · rintro ⟨win, hm, he⟩
    exact ⟨win, hm, he.symm⟩

theorem contains_window_iff_mem (w : Workspace) (hwnd : Int) :
    w.contains_window hwnd = true ↔ hwnd ∈ w.all_hwnds := by
  simp only [Workspace.contains_window, Workspace.all_hwnds]
  cases hmax : w.maximized_window <;> cases hmono : w.monocle_container <;>
    simp only [optContainerHwnds, optWindowHwnd, List.mem_append,
      List.mem_singleton, List.not_mem_nil, Bool.or_eq_true,
      mem_tiledHwnds_iff, mem_map_hwnd_iff_any, mem_hwnds_iff,
      decide_eq_true_eq] <;> tauto

theorem contains_managed_window_iff_mem (w : Workspace) (hwnd : Int) :
    w.contains_managed_window hwnd = true ↔
      hwnd ∈ tiledHwnds w.containers ++
             optContainerHwnds w.monocle_container ++
             optWindowHwnd w.maximized_window := by
  simp only [Workspace.contains_managed_window]
  cases hmax : w.maximized_window <;> cases hmono : w.monocle_container <;>
    simp only [optContainerHwnds, optWindowHwnd, List.mem_append,
      List.mem_singleton, List.not_mem_nil, Bool.or_eq_true,
      mem_tiledHwnds_iff, mem_hwnds_iff, decide_eq_true_eq] <;> tauto

/-- Claim C5 (corrected): the lookups do search tiled containers, then the
maximized window, then the monocle container, then the floating list —
`hwnd_from_exe` equals the ordered first-match reference, and the two
membership tests answer membership of the combined handle sets — but
`container_idx_for_window` (hence `container_for_window`) keeps the LAST
matching tiled container, not the first: its scan does not short-circuit. -/
theorem claim_C5_lookup_order :
    (∀ (w : Workspace) (exe : String),
        w.hwnd_from_exe exe = hwnd_from_exe_spec w exe) ∧
    (∀ (w : Workspace) (hwnd : Int),
        w.container_idx_for_window hwnd
          = ((w.containers.enum.filter
                (fun x => x.2.contains_window hwnd)).getLast?).map
              Prod.fst) ∧
    (∀ (w : Workspace) (hwnd : Int),
        w.contains_window hwnd = true ↔ hwnd ∈ w.all_hwnds) ∧
    (∀ (w : Workspace) (hwnd : Int),
        w.contains_managed_window hwnd = true ↔
          hwnd ∈ tiledHwnds w.containers ++
                 optContainerHwnds w.monocle_container ++
                 optWindowHwnd w.maximized_window) := by
  refine ⟨hwnd_from_exe_eq_spec, fun w hwnd => ?_,
    contains_window_iff_mem, contains_managed_window_iff_mem⟩
  unfold Workspace.container_idx_for_window
  exact lastMatchFold_eq _ _

/-- Claim C5 counterexample: handle 5 lives in tiled container 0 and also
in tiled container 1; `container_idx_for_window` returns index 1, the
last match, not the first. -/
theorem claim_C5_counterexample :
    wsDup5.container_idx_for_window 5 = some 1 ∧
    (wsDup5.containers[0]?.map (fun c => c.contains_window 5))
      = some true := by
  decide

theorem move_finish_eval {w : Workspace} {adjusted : Nat} {win : Window}
    {tc : Container} (htc : w.containers[adjusted]? = some tc) :
    w.move_finish adjusted win = .ok
      { w with
          containers := w.containers.set adjusted (tc.add_window win),
          focused := adjusted } := by
  have hlt : adjusted < w.containers.length := lt_of_getElem?_eq_some htc
  unfold Workspace.move_finish Workspace.focus_container
    Workspace.focused_container_idx
  simp only [htc]
  rw [if_pos (show adjusted <
      (w.containers.set adjusted (tc.add_window win)).length by
    rw [List.length_set]; exact hlt)]
  simp only [List.getElem?_set_self hlt]

/-- Claim C8: `move_window_to_container` removes the focused window from
the focused container; when the source stays non-empty the window is
appended to the target container and the target index becomes focused;
when the source empties, the source container and its resize slot are
dropped and the target index is decremented exactly when it lay after
the source index. -/
theorem claim_C8_move_adjustment :
    ∀ (w : Workspace) (t : Nat) (c : Container) (win : Window)
      (c' tc : Container),
      w.containers[w.focused]? = some c →
      c.remove_focused_window = some (win, c') →
      ((c'.windows.isEmpty = false →
          (w.containers.set w.focused c')[t]? = some tc →
          w.move_window_to_container t = .ok
            { w with
                containers :=
                  (w.containers.set w.focused c').set t (tc.add_window win),
                focused := t }) ∧
       (c'.windows.isEmpty = true →
          w.focused < w.resize_dimensions.length →
          ((w.containers.set w.focused c').eraseIdx
              w.focused)[if w.focused < t then t - 1 else t]? = some tc →
          w.move_window_to_container t = .ok
            { w with
                containers :=
                  ((w.containers.set w.focused c').eraseIdx w.focused).set
                    (if w.focused < t then t - 1 else t) (tc.add_window win),
                focused := if w.focused < t then t - 1 else t,
                resize_dimensions :=
                  w.resize_dimensions.eraseIdx w.focused })) := by
  intro w t c win c' tc hc hrm
  constructor
  · intro hemp htc
    unfold Workspace.move_window_to_container Workspace.focused_container_idx
    simp only [hc, hrm]
    rw [if_neg (by rw [hemp]; exact Bool.false_ne_true)]
    exact move_finish_eval htc
  · intro hemp hrs htc
    unfold Workspace.move_window_to_container Workspace.focused_container_idx
    simp only [hc, hrm]
    rw [if_pos hemp, if_pos hrs]
    exact move_finish_eval htc

/-- Claim C8 witness: the spec's two concrete moves. `[A(w1,w2), B(w3)]`
with target 1 keeps A and yields `[A(w2), B(w3,w1)]` with focus 1;
`[A(w1), B(w3)]` with target 1 destroys A and yields `[B(w3,w1)]` with
focus 0 and the resize slot of A dropped. -/
theorem claim_C8_witness :
    wsMoveA.move_window_to_container 1 = .ok
      { wsMoveA with
          containers :=
            [{ windows := [⟨2, none⟩], focused := 0 },
             { windows := [⟨3, none⟩, ⟨1, none⟩], focused := 1 }],
          focused := 1 } ∧
    wsMoveB.move_window_to_container 1 = .ok
      { wsMoveB with
          containers := [{ windows := [⟨3, none⟩, ⟨1, none⟩], focused := 1 }],
          focused := 0,
          resize_dimensions := [none] } := by
  constructor
  · exact (claim_C8_move_adjustment wsMoveA 1 contA ⟨1, none⟩
      { windows := [⟨2, none⟩], focused := 0 } contB rfl rfl).1 rfl rfl
  · exact (claim_C8_move_adjustment wsMoveB 1
      { windows := [⟨1, none⟩], focused := 0 } ⟨1, none⟩
      { windows := [], focused := 0 } contB rfl rfl).2 rfl (by decide) rfl

/-- Claim C10: `new_maximized_window` picks its source with a fixed
priority — a floating window matching the foreground handle first (last
match; restore index is the current focused tiled index, the ring and
focus untouched), else the monocle container's focused window (restore
inherited from the monocle restore index, the slot cleared when
emptied, the ring and focus untouched), else the focused tiled
container's focused window (restore index recorded, the container
destroyed with its resize slot when emptied, focus stepped back). -/
theorem claim_C10_maximize_priority :
    (∀ (w : Workspace) (fg : Int) (i : Nat) (fw : Window),
      lastMatchFold w.floating_windows
          (fun x => decide (x.2.hwnd = fg)) = some i →
      w.floating_windows[i]? = some fw →
      w.new_maximized_window fg = .ok
        { w with floating_windows := w.floating_windows.eraseIdx i,
                 maximized_window := some fw,
                 maximized_window_restore_idx := some w.focused }) ∧
    (∀ (w : Workspace) (fg : Int) (mc : Container) (win : Window)
       (mc' : Container),
      lastMatchFold w.floating_windows
          (fun x => decide (x.2.hwnd = fg)) = none →
      w.monocle_container = some mc →
      mc.remove_focused_window = some (win, mc') →
      (mc'.windows.isEmpty = true →
        w.new_maximized_window fg = .ok
          { w with monocle_container := none,
                   monocle_container_restore_idx := none,
                   maximized_window := some win,
                   maximized_window_restore_idx :=
                     w.monocle_container_restore_idx }) ∧
      (mc'.windows.isEmpty = false →
        w.new_maximized_window fg = .ok
          { w with monocle_container := some mc',
                   maximized_window := some win,
                   maximized_window_restore_idx :=
                     w.monocle_container_restore_idx })) ∧
    (∀ (w : Workspace) (fg : Int) (c : Container) (win : Window)
       (c' : Container),
      lastMatchFold w.floating_windows
          (fun x => decide (x.2.hwnd = fg)) = none →
      w.monocle_container = none →
      w.containers[w.focused]? = some c →
      c.remove_focused_window = some (win, c') →
      (c'.windows.isEmpty = false →
        w.new_maximized_window fg = .ok
          (({ w with containers := w.containers.set w.focused c',
                     maximized_window := some win,
                     maximized_window_restore_idx := some w.focused
            } : Workspace).focus_previous_container)) ∧
      (c'.windows.isEmpty = true →
        w.new_maximized_window fg = .ok
          (({ w with
                containers :=
                  (w.containers.set w.focused c').eraseIdx w.focused,
                resize_dimensions :=
                  if w.focused < w.resize_dimensions.length
                  then w.resize_dimensions.eraseIdx w.focused
                  else w.resize_dimensions,
                maximized_window := some win,
                maximized_window_restore_idx := some w.focused
            } : Workspace).focus_previous_container))) := by
  refine ⟨fun w fg i fw hlm hfw => ?_,
    fun w fg mc win mc' hlm hmono hrm => ⟨fun hemp => ?_, fun hemp => ?_⟩,
    fun w fg c win c' hlm hmono hc hrm =>
      ⟨fun hemp => new_maximized_tiled_eval_keep hlm hmono hc hrm hemp,
       fun hemp => new_maximized_tiled_eval_empty hlm hmono hc hrm hemp⟩⟩
  · unfold Workspace.new_maximized_window Workspace.focused_container_idx
    simp only [hlm, hfw]
  · unfold Workspace.new_maximized_window Workspace.focused_container_idx
    simp only [hlm, hmono, hrm, hemp, if_true]
  · unfold Workspace.new_maximized_window Workspace.focused_container_idx
    simp only [hlm, hmono, hrm, hemp, Bool.false_eq_true, if_false]

/-- Claim C10 witness: on a workspace with one tiled window 40 and one
floating window 50 that is the foreground window, maximizing picks the
floating window, records restore index 0, and leaves the ring alone. -/
theorem claim_C10_witness :
    wsFloatFg.new_maximized_window 50 = .ok
      { wsFloatFg with floating_windows := [],
                       maximized_window := some ⟨50, none⟩,
                       maximized_window_restore_idx := some 0 } := by
  exact claim_C10_maximize_priority.1 wsFloatFg 50 0 ⟨50, none⟩ rfl rfl

theorem focused_focus_previous {w : Workspace}
    (h : w.focused = 0 ∨ w.focused - 1 < w.containers.length) :
    w.focus_previous_container.focused = w.focused - 1 := by
  unfold Workspace.focus_previous_container Workspace.focus_container
    Workspace.focused_container_idx
  by_cases h0 : w.focused ≠ 0
  · rw [if_pos h0]
    rcases h with h1 | h1
    · exact absurd h1 h0
    · rw [if_pos h1]
  · rw [if_neg h0]
    omega

theorem remove_container_by_idx_focus {w : Workspace} {idx : Nat}
    (hf : w.focused < w.containers.length) :
    ((w.remove_container_by_idx idx).2.focus_previous_container).focused
      = w.focused - 1 := by
  simp only [Workspace.remove_container_by_idx]
  by_cases hrs : idx < w.resize_dimensions.length
  · rw [if_pos hrs]
    cases hg : ({ w with
        resize_dimensions := w.resize_dimensions.eraseIdx idx }
          : Workspace).containers[idx]? with
    | some c =>
        apply focused_focus_previous
        have hlen : idx < w.containers.length := lt_of_getElem?_eq_some hg
        show w.focused = 0 ∨ w.focused - 1 < (w.containers.eraseIdx idx).length
        have hel := List.length_eraseIdx_add_one hlen
        omega
    | none =>
        apply focused_focus_previous
        show w.focused = 0 ∨ w.focused - 1 < w.containers.length
        omega
  · rw [if_neg hrs]
    cases hg : w.containers[idx]? with
    | some c =>
        apply focused_focus_previous
        have hlen : idx < w.containers.length := lt_of_getElem?_eq_some hg
        show w.focused = 0 ∨ w.focused - 1 < (w.containers.eraseIdx idx).length
        have hel := List.length_eraseIdx_add_one hlen
        omega
    | none =>
        apply focused_focus_previous
        show w.focused = 0 ∨ w.focused - 1 < w.containers.length
        omega

theorem remove_window_to_tiled {w : Workspace} {hwnd : Int}
    (hfl : w.floating_windows.any (fun win => decide (win.hwnd = hwnd)) = false)
    (hmono : w.monocle_container = none)
    (hmax : w.maximized_window = none) :
    w.remove_window hwnd = w.remove_window_tiled hwnd := by
  unfold Workspace.remove_window Workspace.remove_window_rest
  rw [if_neg (by rw [hfl]; exact Bool.false_ne_true)]
  simp only [hmono, hmax]

theorem remove_window_tiled_eval_empty {w : Workspace} {hwnd : Int} {ci : Nat}
    {c : Container} {wi : Nat} {win : Window} {c' : Container}
    (hci : w.container_idx_for_window hwnd = some ci)
    (hc : w.containers[ci]? = some c)
    (hfi : c.windows.findIdx? (fun win => decide (win.hwnd = hwnd)) = some wi)
    (hrm : c.remove_window_by_idx wi = some (win, c'))
    (hemp : c'.windows.isEmpty = true) :
    w.remove_window_tiled hwnd = .ok
      (({ w with
            containers := (w.containers.set ci c').eraseIdx ci,
            resize_dimensions :=
              if ci < w.resize_dimensions.length
              then w.resize_dimensions.eraseIdx ci
              else w.resize_dimensions } : Workspace).focus_previous_container) := by
  have hlt : ci < w.containers.length := lt_of_getElem?_eq_some hc
  unfold Workspace.remove_window_tiled
  simp only [hci, hc, hfi, hrm, hemp, if_true, List.getElem?_set_self hlt]
  by_cases hrs : ci < w.resize_dimensions.length
  · rw [if_pos hrs, if_pos hrs]
  · rw [if_neg hrs, if_neg hrs]

theorem remove_window_tiled_eval_keep {w : Workspace} {hwnd : Int} {ci : Nat}
    {c : Container} {wi : Nat} {win : Window} {c' : Container}
    (hci : w.container_idx_for_window hwnd = some ci)
    (hc : w.containers[ci]? = some c)
    (hfi : c.windows.findIdx? (fun win => decide (win.hwnd = hwnd)) = some wi)
    (hrm : c.remove_window_by_idx wi = some (win, c'))
    (hemp : c'.windows.isEmpty = false) :
    w.remove_window_tiled hwnd = .ok
      { w with containers := w.containers.set ci c' } := by
  unfold Workspace.remove_window_tiled
  simp only [hci, hc, hfi, hrm, hemp, Bool.false_eq_true, if_false]

/-- Claim C6 (corrected): every container removal steps the focus cursor
back by one, floored at zero, whether or not the removed index was the
focused one — `remove_focused_container`, `remove_container` at any
index, and the container-destroying path of `remove_window` all call
`focus_previous_container` unconditionally, and the non-destroying path
of `remove_window` leaves focus unchanged. The spec's claim that
removing a non-focused element does not move focus does not hold. -/
theorem claim_C6_focus_after_removal :
    (∀ (w : Workspace), w.focused < w.containers.length →
        (w.remove_focused_container).2.focused = w.focused - 1) ∧
    (∀ (w : Workspace) (idx : Nat), w.focused < w.containers.length →
        (w.remove_container idx).2.focused = w.focused - 1) ∧
    (∀ (w : Workspace) (hwnd : Int) (ci : Nat) (c : Container) (wi : Nat)
       (win : Window) (c' : Container),
        w.floating_windows.any (fun x => decide (x.hwnd = hwnd)) = false →
        w.monocle_container = none →
        w.maximized_window = none →
        w.container_idx_for_window hwnd = some ci →
        w.containers[ci]? = some c →
        c.windows.findIdx? (fun x => decide (x.hwnd = hwnd)) = some wi →
        c.remove_window_by_idx wi = some (win, c') →
        (c'.windows.isEmpty = true →
          w.focused < w.containers.length →
          (w.remove_window hwnd).okState.map Workspace.focused
            = some (w.focused - 1)) ∧
        (c'.windows.isEmpty = false →
          (w.remove_window hwnd).okState.map Workspace.focused
            = some w.focused)) := by
  refine ⟨fun w hf => remove_container_by_idx_focus hf,
    fun w idx hf => remove_container_by_idx_focus hf,
    fun w hwnd ci c wi win c' hfl hmono hmax hci hc hfi hrm =>
      ⟨fun hemp hf => ?_, fun hemp => ?_⟩⟩
  · rw [remove_window_to_tiled hfl hmono hmax,
        remove_window_tiled_eval_empty hci hc hfi hrm hemp]
    have hlt : ci < w.containers.length := lt_of_getElem?_eq_some hc
    have hset : (w.containers.set ci c').length = w.containers.length :=
      List.length_set w.containers ci c'
    have hel := List.length_eraseIdx_add_one
      (show ci < (w.containers.set ci c').length by omega)
    have key : ∀ (v : Workspace),
        v.focused = 0 ∨ v.focused - 1 < v.containers.length →
        (StepResult.ok v.focus_previous_container).okState.map
            Workspace.focused
          = some (v.focused - 1) := by
      intro v hv
      show some (v.focus_previous_container.focused) = some (v.focused - 1)
      rw [focused_focus_previous hv]
    exact key _ (show w.focused = 0 ∨
      w.focused - 1 < ((w.containers.set ci c').eraseIdx ci).length by omega)
  · rw [remove_window_to_tiled hfl hmono hmax,
        remove_window_tiled_eval_keep hci hc hfi hrm hemp]
    rfl

/-- Claim C6 counterexample: in `wsThree` focus is on index 1, and the
sole window of the non-focused container at index 2 is removed; the
claimed policy keeps focus at 1, but the code steps it to 0. -/
theorem claim_C6_counterexample :
    (wsThree.remove_window 30).okState.map Workspace.focused = some 0 ∧
    wsThree.focused = 1 := by
  decide

/-- Claim C6 witness: removing the focused container of `wsThree`
(three containers, focus 1) leaves focus at index 0. -/
theorem claim_C6_witness :
    (wsThree.remove_focused_container).2.focused = wsThree.focused - 1 :=
  claim_C6_focus_after_removal.1 wsThree (by decide)

theorem align_remove_container_by_idx {w : Workspace} (idx : Nat)
    (halign : w.resize_dimensions.length = w.containers.length) :
    (w.remove_container_by_idx idx).2.resize_dimensions.length
      = (w.remove_container_by_idx idx).2.containers.length := by
  simp only [Workspace.remove_container_by_idx]
  by_cases hrs : idx < w.resize_dimensions.length
  · rw [if_pos hrs]
    cases hg : ({ w with
        resize_dimensions := w.resize_dimensions.eraseIdx idx }
          : Workspace).containers[idx]? with
    | some c =>
        have hlen : idx < w.containers.length := lt_of_getElem?_eq_some hg
        show (w.resize_dimensions.eraseIdx idx).length
          = (w.containers.eraseIdx idx).length
        have h1 := List.length_eraseIdx_add_one hrs
        have h2 := List.length_eraseIdx_add_one hlen
        omega
    | none =>
        have hle : w.containers.length ≤ idx :=
          List.getElem?_eq_none_iff.1 (show w.containers[idx]? = none from hg)
        exact absurd hrs (by omega)
  · rw [if_neg hrs]
    cases hg : w.containers[idx]? with
    | some c =>
        have hlen : idx < w.containers.length := lt_of_getElem?_eq_some hg
        exact absurd hlen (by omega)
    | none => exact halign

theorem align_new_container_for_window (w : Workspace) (win : Window)
    (halign : w.resize_dimensions.length = w.containers.length) :
    (w.new_container_for_window win).resize_dimensions.length
      = (w.new_container_for_window win).containers.length := by
  by_cases he : w.containers.isEmpty
  · have hnil : w.containers = [] := List.isEmpty_iff.1 he
    have hr0 : w.resize_dimensions.length = 0 := by rw [halign, hnil]; rfl
    have hrnil : w.resize_dimensions = [] :=
      List.eq_nil_of_length_eq_zero hr0
    simp [Workspace.new_container_for_window, he, hnil, hrnil,
          resize_focus_container, containers_focus_container]
  · by_cases h1 : w.focused + 1 > w.containers.length
    · have h2 : w.focused + 1 > w.resize_dimensions.length := by omega
      simp [Workspace.new_container_for_window,
            Workspace.focused_container_idx, he, h1, h2,
            resize_focus_container, containers_focus_container]
      omega
    · have hle : w.focused + 1 ≤ w.containers.length := Nat.le_of_not_lt h1
      have h2 : ¬ w.focused + 1 > w.resize_dimensions.length := by omega
      have hle2 : w.focused + 1 ≤ w.resize_dimensions.length :=
        Nat.le_of_not_lt h2
      simp [Workspace.new_container_for_window,
            Workspace.focused_container_idx, he, h1, h2,
            resize_focus_container, containers_focus_container,
            List.length_insertIdx (w.focused + 1) w.containers hle,
            List.length_insertIdx (w.focused + 1) w.resize_dimensions hle2]
      omega

theorem align_new_container_for_floating_window {w w' : Workspace} {fg : Int}
    (halign : w.resize_dimensions.length = w.containers.length)
    (h : w.new_container_for_floating_window fg = .ok w') :
    w'.resize_dimensions.length = w'.containers.length := by
  unfold Workspace.new_container_for_floating_window
    Workspace.remove_focused_floating_window Workspace.focused_container_idx at h
  cases hlm : lastMatchFold w.floating_windows
      (fun x => decide (fg = x.2.hwnd)) with
  | none =>
      simp only [hlm] at h
      cases h
  | some idx =>
      simp only [hlm] at h
      cases hfw : w.floating_windows[idx]? with
      | none =>
          simp only [hfw] at h
          cases h
      | some win =>
          simp only [hfw] at h
          by_cases h1 : w.focused ≤ w.containers.length
          · rw [if_pos h1] at h
            by_cases h2 : w.focused ≤ w.resize_dimensions.length
            · rw [if_pos h2] at h
              injection h with hx
              subst hx
              show (w.resize_dimensions.insertIdx w.focused none).length
                = (w.containers.insertIdx w.focused
                    (Container.empty.add_window win)).length
              rw [List.length_insertIdx w.focused w.resize_dimensions h2,
                  List.length_insertIdx w.focused w.containers h1, halign]
            · rw [if_neg h2] at h
              cases h
          · rw [if_neg h1] at h
            cases h

theorem align_remove_window_tiled {w w' : Workspace} {hwnd : Int}
    (halign : w.resize_dimensions.length = w.containers.length)
    (h : w.remove_window_tiled hwnd = .ok w') :
    w'.resize_dimensions.length = w'.containers.length := by
  unfold Workspace.remove_window_tiled at h
  cases hci : w.container_idx_for_window hwnd with
  | none =>
      simp only [hci] at h
      cases h
  | some ci =>
      simp only [hci] at h
      cases hc : w.containers[ci]? with
      | none =>
          simp only [hc] at h
          cases h
      | some c =>
          simp only [hc] at h
          cases hfi : c.windows.findIdx?
              (fun win => decide (win.hwnd = hwnd)) with
          | none =>
              simp only [hfi] at h
              cases h
          | some wi =>
              simp only [hfi] at h
              cases hrm : c.remove_window_by_idx wi with
              | none =>
                  simp only [hrm] at h
                  cases h
              | some pair =>
                  obtain ⟨win, c'⟩ := pair
                  simp only [hrm] at h
                  have hlt : ci < w.containers.length := lt_of_getElem?_eq_some hc
                  by_cases hemp : c'.windows.isEmpty
                  · simp only [hemp, if_true] at h
                    cases hg1 : (w.containers.set ci c')[ci]? with
                    | none =>
                        simp only [hg1] at h
                        cases h
                    | some cx =>
                        simp only [hg1] at h
                        injection h with h2
                        subst h2
                        rw [resize_focus_previous, containers_focus_previous]
                        by_cases hrs : ci < w.resize_dimensions.length
                        · rw [if_pos hrs]
                          show (w.resize_dimensions.eraseIdx ci).length
                            = ((w.containers.set ci c').eraseIdx ci).length
                          have h1 := List.length_eraseIdx_add_one hrs
                          have h2 := List.length_eraseIdx_add_one
                            (show ci < (w.containers.set ci c').length by
                              rw [List.length_set]; exact hlt)
                          rw [List.length_set] at h2
                          omega
                        · exact absurd (show ci < w.resize_dimensions.length
                            by omega) hrs
                  · simp only [hemp, Bool.false_eq_true, if_false] at h
                    injection h with h2
                    subst h2
                    show w.resize_dimensions.length
                      = (w.containers.set ci c').length
                    rw [List.length_set]
                    exact halign

theorem align_remove_window_rest {w w' : Workspace} {hwnd : Int}
    (halign : w.resize_dimensions.length = w.containers.length)
    (h : w.remove_window_rest hwnd = .ok w') :
    w'.resize_dimensions.length = w'.containers.length := by
  unfold Workspace.remove_window_rest at h
  cases hmax : w.maximized_window with
  | none =>
      simp only [hmax] at h
      exact align_remove_window_tiled halign h
  | some window =>
      simp only [hmax] at h
      by_cases hw : window.hwnd = hwnd
      · rw [if_pos hw] at h
        injection h with h2
        subst h2
        exact halign
      · rw [if_neg hw] at h
        exact align_remove_window_tiled halign h

theorem align_remove_window {w w' : Workspace} {hwnd : Int}
    (halign : w.resize_dimensions.length = w.containers.length)
    (h : w.remove_window hwnd = .ok w') :
    w'.resize_dimensions.length = w'.containers.length := by
  unfold Workspace.remove_window at h
  by_cases hfl : w.floating_windows.any
      (fun win => decide (win.hwnd = hwnd)) = true
  · rw [if_pos hfl] at h
    injection h with h2
    subst h2
    exact halign
  · rw [if_neg hfl] at h
    cases hmono : w.monocle_container with
    | none =>
        simp only [hmono] at h
        exact align_remove_window_rest halign h
    | some container =>
        simp only [hmono] at h
        cases hfi : container.windows.findIdx?
            (fun win => decide (win.hwnd = hwnd)) with
        | none =>
            simp only [hfi] at h
            exact align_remove_window_rest halign h
        | some wi =>
            simp only [hfi] at h
            cases hrm : container.remove_window_by_idx wi with
            | none =>
                simp only [hrm] at h
                cases h
            | some pair =>
                obtain ⟨win, c'⟩ := pair
                simp only [hrm] at h
                by_cases hemp : c'.windows.isEmpty
                · simp only [hemp, if_true] at h
                  injection h with h2
                  subst h2
                  exact halign
                · simp only [hemp, Bool.false_eq_true, if_false] at h
                  injection h with h2
                  subst h2
                  exact halign

/-- Claim C4 (corrected): the alignment
`resize_dimensions.length = containers.length` is preserved by
`remove_container_by_idx` (at any index), `new_container_for_window`,
`new_container_for_floating_window` and `remove_window`; but it is NOT
maintained by every ring-touching operation — `add_container` and
`insert_container_at_idx` never touch `resize_dimensions`,
`new_monocle_container` removes a container without its resize slot,
and `promote_container` can remove two resize slots for one container. -/
theorem claim_C4_resize_alignment :
    (∀ (w : Workspace) (idx : Nat),
        w.resize_dimensions.length = w.containers.length →
        (w.remove_container_by_idx idx).2.resize_dimensions.length
          = (w.remove_container_by_idx idx).2.containers.length) ∧
    (∀ (w : Workspace) (win : Window),
        w.resize_dimensions.length = w.containers.length →
        (w.new_container_for_window win).resize_dimensions.length
          = (w.new_container_for_window win).containers.length) ∧
    (∀ (w w' : Workspace) (fg : Int),
        w.resize_dimensions.length = w.containers.length →
        w.new_container_for_floating_window fg = .ok w' →
        w'.resize_dimensions.length = w'.containers.length) ∧
    (∀ (w w' : Workspace) (hwnd : Int),
        w.resize_dimensions.length = w.containers.length →
        w.remove_window hwnd = .ok w' →
        w'.resize_dimensions.length = w'.containers.length) :=
  ⟨fun _ idx halign => align_remove_container_by_idx idx halign,
   fun w win halign => align_new_container_for_window w win halign,
   fun _ _ _ halign h => align_new_container_for_floating_window halign h,
   fun _ _ _ halign h => align_remove_window halign h⟩

/-- Claim C4 counterexample: `add_container` pushes onto the ring without
mirroring `resize_dimensions`, so the claimed alignment breaks on the
very first ring-touching operation from the empty workspace. -/
theorem claim_C4_counterexample :
    (emptyWorkspace.add_container contB).containers.length = 1 ∧
    (emptyWorkspace.add_container contB).resize_dimensions.length = 0 := by
  decide

/-- Claim C4 witness: removing container 0 of the aligned two-container
workspace `wsMoveA` keeps the lengths equal. -/
theorem claim_C4_witness :
    (wsMoveA.remove_container_by_idx 0).2.resize_dimensions.length
      = (wsMoveA.remove_container_by_idx 0).2.containers.length :=
  claim_C4_resize_alignment.1 wsMoveA 0 (by decide)
